import Mathlib

/-!
# Task-blocking classification and its test harness

Verification development for the `WIN32-MSVC-vTaskGetCurrentBlocker` test of the
FreeRTOS tree.  The test program (`main.c`) is embedded from its source.  The
kernel functions it calls (`vTaskGetCurrentBlocker`, `xSemaphoreTake`, ...) live in
tasks.c and queue.c, outside the files embedded here; they are modelled from the
specification and every such definition says so in its doc comment.
-/

namespace FreeRTOS

/-! ## Kernel data model -/

/-- Handle of a task (the address of its control block). -/
abbrev TaskHandle_t := Nat

/-- Handle of a semaphore / queue object. -/
abbrev SemaphoreHandle_t := Nat

/-- Tick counts. -/
abbrev TickType_t := Nat

/-- Modelled from the spec: the constant `portMAX_DELAY` (portmacro.h is absent); it is
the "infinite timeout" of the blocking calls.  With 32-bit ticks
(`configUSE_16_BIT_TICKS` is 0) it is the largest tick value. -/
def portMAX_DELAY : TickType_t := 0xffffffff

/-- Modelled from the spec: the task states of section 3 (`eTaskState` of task.h, which
is absent); `main.c` uses the enumerator `eBlocked`. -/
inductive eTaskState where
  | eRunning
  | eReady
  | eBlocked
  | eSuspended
  | eDeleted
  deriving DecidableEq, Repr

/-- Modelled from the spec: the four classifier statuses (the enumeration is declared
in the absent task.h); the enumerator names are the ones `main.c` uses. -/
inductive eBlockedStatus where
  | eNotBlocked
  | eBlockedForEvent
  | eBlockedForNotification
  | eBlockedForTime
  deriving DecidableEq, Repr

/-- Modelled from the spec: a wait list (`List_t` of the absent list.h), owned by the
synchronisation object it belongs to. -/
structure List_t where
  pvOwner : SemaphoreHandle_t
  deriving DecidableEq, Repr

/-- Modelled from the spec: the classifier's output record
`{status, eventObjectRef?, wakeTick?}` (`TaskBlockedStatus_t` of the absent task.h),
with the field names `main.c` reads. -/
structure TaskBlockedStatus_t where
  eStatus : eBlockedStatus
  pxEventList : Option List_t
  xUntilTick : Option TickType_t
  deriving DecidableEq, Repr

/-- Modelled from the spec: the macro `listGET_LIST_OWNER` (absent list.h): the object
that owns the given wait list; a null list has no owner. -/
def listGET_LIST_OWNER (pxList : Option List_t) : Option SemaphoreHandle_t :=
  pxList.map List_t.pvOwner

/-- Modelled from the spec: the notify actions of section 4.3 (set bits / overwrite /
increment / no action), under the names of the kernel API; `main.c` uses `eNoAction`. -/
inductive eNotifyAction where
  | eNoAction
  | eSetBits
  | eIncrement
  | eSetValueWithOverwrite
  deriving DecidableEq, Repr

/-- Modelled from the spec: the single scheduler-context object of section 9, holding
the tick counter, the task states, the WaitableRegistry (one wait list per object),
the DelayTimer deadlines and the NotificationSlot of every task.  The kernel's
own data structures (tasks.c, queue.c) are absent. -/
structure Kernel where
  xTickCount : TickType_t
  state : TaskHandle_t → eTaskState
  objs : List SemaphoreHandle_t
  available : SemaphoreHandle_t → Bool
  waitList : SemaphoreHandle_t → List TaskHandle_t
  deadline : TaskHandle_t → Option TickType_t
  notifyWait : TaskHandle_t → Bool
  exitMask : TaskHandle_t → Nat
  pending : TaskHandle_t → Bool
  value : TaskHandle_t → Nat

open eTaskState eBlockedStatus eNotifyAction

/-- Modelled from the spec: the scheduler context before anything was created: tick 0,
no task, no synchronisation object. -/
def Kernel.init : Kernel :=
  { xTickCount := 0
    state := fun _ => eDeleted
    objs := []
    available := fun _ => false
    waitList := fun _ => []
    deadline := fun _ => none
    notifyWait := fun _ => false
    exitMask := fun _ => 0
    pending := fun _ => false
    value := fun _ => 0 }

/-- Modelled from the spec: retraction of every registration of task `t` (wait-list
membership, notification wait, deadline): "the loser's registration in the other
structure must be retracted". -/
def prvRetract (k : Kernel) (t : TaskHandle_t) : Kernel :=
  { k with
    waitList := fun o => (k.waitList o).filter (fun x => decide (x ≠ t))
    deadline := fun x => if x = t then none else k.deadline x
    notifyWait := fun x => if x = t then false else k.notifyWait x }

/-- Modelled from the spec: a blocked task is woken: its registrations are retracted
and it is restored to Ready. -/
def prvWake (k : Kernel) (t : TaskHandle_t) : Kernel :=
  { prvRetract k t with state := fun x => if x = t then eReady else k.state x }

/-- Modelled from the spec: the deadline a blocking call with timeout `xTicksToWait`
registers at tick `now`: none for the infinite timeout, `now + ticks` otherwise. -/
def prvDeadline (now xTicksToWait : TickType_t) : Option TickType_t :=
  if xTicksToWait = portMAX_DELAY then none else some (now + xTicksToWait)

/-- Modelled from the spec: `vSemaphoreCreateBinary` (absent semphr.h / queue.c): a new
binary semaphore, created available and with an empty wait list. -/
def vSemaphoreCreateBinary (k : Kernel) (sem : SemaphoreHandle_t) : Kernel :=
  if sem ∈ k.objs then k
  else
    { k with
      objs := k.objs ++ [sem]
      available := fun o => if o = sem then true else k.available o
      waitList := fun o => if o = sem then [] else k.waitList o }

/-- Modelled from the spec: `acquire(obj, timeout)` of section 4.1 (`xSemaphoreTake`,
absent queue.c), called by the running task `caller`.  An available token is taken
without blocking; otherwise a zero timeout never blocks, and a positive one puts
the caller on the object's wait list in state Blocked (with a deadline when the
timeout is finite). -/
def xSemaphoreTake (k : Kernel) (caller : TaskHandle_t) (sem : SemaphoreHandle_t)
    (xTicksToWait : TickType_t) : Kernel :=
  if k.state caller = eRunning ∧ sem ∈ k.objs then
    if k.available sem then
      { k with available := fun o => if o = sem then false else k.available o }
    else if xTicksToWait = 0 then k
    else
      { k with
        state := fun x => if x = caller then eBlocked else k.state x
        waitList := fun o => if o = sem then k.waitList sem ++ [caller] else k.waitList o
        deadline := fun x =>
          if x = caller then prvDeadline k.xTickCount xTicksToWait else k.deadline x }
  else k

/-- Modelled from the spec: `release(obj)` of section 4.1 (`xSemaphoreGive`, absent
queue.c): the resource becomes available and, if the wait list is non-empty, the
earliest-enqueued waiter is woken. -/
def xSemaphoreGive (k : Kernel) (sem : SemaphoreHandle_t) : Kernel :=
  if sem ∈ k.objs then
    match k.waitList sem with
    | [] => { k with available := fun o => if o = sem then true else k.available o }
    | t :: _ =>
      prvWake { k with available := fun o => if o = sem then true else k.available o } t
  else k

/-- Modelled from the spec: `delay(ticks)` of section 4.2 (`vTaskDelay`, absent tasks.c),
called by the running task `caller`: `wakeTick = now + ticks`, caller Blocked. -/
def vTaskDelay (k : Kernel) (caller : TaskHandle_t) (xTicksToDelay : TickType_t) : Kernel :=
  if k.state caller = eRunning then
    { k with
      state := fun x => if x = caller then eBlocked else k.state x
      deadline := fun x =>
        if x = caller then some (k.xTickCount + xTicksToDelay) else k.deadline x }
  else k

/-- Bits of a 32-bit notification value that survive clearing the bits of `mask`. -/
def prvClearBits (v mask : Nat) : Nat := v - (v &&& mask)

/-- Modelled from the spec: `waitForNotification(clearOnEntryMask, clearOnExitMask,
timeout)` of section 4.3 (`xTaskNotifyWait`, absent tasks.c), called by the running task
`caller`.  A pending value is consumed without blocking; otherwise a zero timeout
never blocks and a positive one blocks the caller in a notification wait. -/
def xTaskNotifyWait (k : Kernel) (caller : TaskHandle_t) (ulBitsToClearOnEntry
    ulBitsToClearOnExit : Nat) (xTicksToWait : TickType_t) : Kernel :=
  if k.state caller = eRunning then
    if k.pending caller then
      { k with
        pending := fun x => if x = caller then false else k.pending x
        value := fun x =>
          if x = caller then prvClearBits (k.value caller) ulBitsToClearOnExit else k.value x }
    else if xTicksToWait = 0 then
      { k with
        value := fun x =>
          if x = caller then prvClearBits (k.value caller) ulBitsToClearOnEntry
          else k.value x }
    else
      { k with
        state := fun x => if x = caller then eBlocked else k.state x
        notifyWait := fun x => if x = caller then true else k.notifyWait x
        exitMask := fun x => if x = caller then ulBitsToClearOnExit else k.exitMask x
        value := fun x =>
          if x = caller then prvClearBits (k.value caller) ulBitsToClearOnEntry
          else k.value x
        deadline := fun x =>
          if x = caller then prvDeadline k.xTickCount xTicksToWait else k.deadline x }
  else k

/-- Modelled from the spec: the effect of a notify action on the 32-bit notification
value (section 4.3); `eNoAction` takes no action on the value. -/
def prvNotifyValue (old ulValue : Nat) : eNotifyAction → Nat
  | eNoAction => old
  | eSetBits => old ||| (ulValue % 2 ^ 32)
  | eIncrement => (old + 1) % 2 ^ 32
  | eSetValueWithOverwrite => ulValue % 2 ^ 32

/-- Modelled from the spec: `notify(task, value, action)` of section 4.3 (`xTaskNotify`,
absent tasks.c): the value is delivered per `action`; a task blocked in
`waitForNotification` is woken immediately, otherwise the value stays pending. -/
def xTaskNotify (k : Kernel) (xTaskToNotify : TaskHandle_t) (ulValue : Nat)
    (eAction : eNotifyAction) : Kernel :=
  if k.state xTaskToNotify = eDeleted then k
  else if k.notifyWait xTaskToNotify then
    prvWake
      { k with
        value := fun x =>
          if x = xTaskToNotify then
            prvClearBits (prvNotifyValue (k.value x) ulValue eAction) (k.exitMask x)
          else k.value x }
      xTaskToNotify
  else
    { k with
      pending := fun x => if x = xTaskToNotify then true else k.pending x
      value := fun x =>
        if x = xTaskToNotify then prvNotifyValue (k.value x) ulValue eAction else k.value x }

/-- Modelled from the spec: task creation (`xTaskCreate`, absent tasks.c): a handle that
names no task becomes a Ready task with an empty notification slot. -/
def xTaskCreate (k : Kernel) (h : TaskHandle_t) : Kernel :=
  if k.state h = eDeleted then
    { k with
      state := fun x => if x = h then eReady else k.state x
      pending := fun x => if x = h then false else k.pending x
      value := fun x => if x = h then 0 else k.value x }
  else k

/-- Modelled from the spec: task deletion (`vTaskDelete`, absent tasks.c): the task is
removed from whichever wait list or deadline set holds it and becomes Deleted. -/
def vTaskDelete (k : Kernel) (h : TaskHandle_t) : Kernel :=
  { prvRetract k h with state := fun x => if x = h then eDeleted else k.state x }

/-- Whether task `x` has a deadline that tick `now` has reached. -/
def prvDue (k : Kernel) (now : TickType_t) (x : TaskHandle_t) : Bool :=
  match k.deadline x with
  | some w => decide (w ≤ now)
  | none => false

/-- Modelled from the spec: one tick of the kernel's tick source (`xTaskIncrementTick`,
absent tasks.c): the tick count advances by one and every task whose deadline is
reached becomes Ready, its registrations retracted. -/
def xTaskIncrementTick (k : Kernel) : Kernel :=
  { k with
    xTickCount := k.xTickCount + 1
    state := fun x => if prvDue k (k.xTickCount + 1) x then eReady else k.state x
    waitList := fun o => (k.waitList o).filter (fun x => !prvDue k (k.xTickCount + 1) x)
    deadline := fun x => if prvDue k (k.xTickCount + 1) x then none else k.deadline x
    notifyWait := fun x => if prvDue k (k.xTickCount + 1) x then false else k.notifyWait x }

/-- Modelled from the spec: a context switch by the external scheduler
(`vTaskSwitchContext`, absent tasks.c): the Ready task `t` is selected to run and the
task that was running becomes Ready. -/
def vTaskSwitchContext (k : Kernel) (t : TaskHandle_t) : Kernel :=
  if k.state t = eReady then
    { k with
      state := fun x =>
        if x = t then eRunning else if k.state x = eRunning then eReady else k.state x }
  else k

/-- Modelled from the spec: `eTaskGetState` (absent tasks.c): the task's current state. -/
def eTaskGetState (k : Kernel) (xTask : TaskHandle_t) : eTaskState := k.state xTask

/-- Modelled from the spec: the object, if any, on whose wait list the task sits
("which object is task T waiting on, in the event-blocked sense", section 4.1). -/
def prvEventObject (k : Kernel) (xTask : TaskHandle_t) : Option SemaphoreHandle_t :=
  k.objs.find? (fun o => decide (xTask ∈ k.waitList o))

/-- Modelled from the spec: the BlockerClassifier of section 4.4
(`vTaskGetCurrentBlocker`, whose definition in tasks.c is absent): (a) member of some
wait list, else (b) inside a notification wait, else (c) pending deadline, else
(d) not blocked. -/
def vTaskGetCurrentBlocker (k : Kernel) (xTask : TaskHandle_t) : TaskBlockedStatus_t :=
  match prvEventObject k xTask with
  | some o => { eStatus := eBlockedForEvent, pxEventList := some ⟨o⟩, xUntilTick := none }
  | none =>
    if k.notifyWait xTask then
      { eStatus := eBlockedForNotification, pxEventList := none, xUntilTick := none }
    else
      match k.deadline xTask with
      | some w => { eStatus := eBlockedForTime, pxEventList := none, xUntilTick := some w }
      | none => { eStatus := eNotBlocked, pxEventList := none, xUntilTick := none }

/-- Modelled from the spec: the kernel calls of sections 4.1 to 4.4, as the steps of the
scheduler context's state machine. -/
inductive Op where
  | semCreate (sem : SemaphoreHandle_t)
  | take (caller : TaskHandle_t) (sem : SemaphoreHandle_t) (xTicksToWait : TickType_t)
  | give (sem : SemaphoreHandle_t)
  | delay (caller : TaskHandle_t) (xTicksToDelay : TickType_t)
  | notifyWait (caller : TaskHandle_t) (entry exit : Nat) (xTicksToWait : TickType_t)
  | notify (t : TaskHandle_t) (ulValue : Nat) (eAction : eNotifyAction)
  | create (h : TaskHandle_t)
  | delete (h : TaskHandle_t)
  | tick
  | switch (t : TaskHandle_t)
  | getBlocker (xTask : TaskHandle_t)
  | getState (xTask : TaskHandle_t)
  deriving DecidableEq, Repr

/-- Modelled from the spec: the kernel state after one call; the two queries
(classifier, `eTaskGetState`) are pure reads. -/
def Kernel.step (k : Kernel) : Op → Kernel
  | .semCreate sem => vSemaphoreCreateBinary k sem
  | .take c sem n => xSemaphoreTake k c sem n
  | .give sem => xSemaphoreGive k sem
  | .delay c n => vTaskDelay k c n
  | .notifyWait c e x n => xTaskNotifyWait k c e x n
  | .notify t v a => xTaskNotify k t v a
  | .create h => xTaskCreate k h
  | .delete h => vTaskDelete k h
  | .tick => xTaskIncrementTick k
  | .switch t => vTaskSwitchContext k t
  | .getBlocker _ => k
  | .getState _ => k

/-- The kernel state after a sequence of calls. -/
def Kernel.run (k : Kernel) (ops : List Op) : Kernel := ops.foldl Kernel.step k

/-- Whether `op` is a blocking call (acquire, delay, notification wait) made by task `t`. -/
def Op.blocksTask (t : TaskHandle_t) : Op → Bool
  | .take c _ _ => decide (c = t)
  | .delay c _ => decide (c = t)
  | .notifyWait c _ _ _ => decide (c = t)
  | _ => false

/-! ## The scheduler context's invariant -/

/-- Invariants I1/I2 of the scheduler context: a task that is registered in some
structure (on a wait list, in a notification wait, or holding a deadline) is Blocked,
and only existing objects have waiters. -/
structure Kernel.Inv (k : Kernel) : Prop where
  blocked : ∀ t, ((∃ o, t ∈ k.waitList o) ∨ k.notifyWait t = true ∨ k.deadline t ≠ none) →
    k.state t = eBlocked
  known : ∀ o, o ∉ k.objs → k.waitList o = []

/-- Task `T` has in `k2` the blocking registrations and the state it has in `k`. -/
def Kernel.sameBlocking (k k2 : Kernel) (T : TaskHandle_t) : Prop :=
  (∀ o, T ∈ k2.waitList o ↔ T ∈ k.waitList o) ∧ k2.notifyWait T = k.notifyWait T ∧
    k2.deadline T = k.deadline T ∧ k2.state T = k.state T

/-! ## Predicates on kernel calls, and the histories of the test's scenarios -/

/-- Whether `op` is a notify that targets task `T`. -/
def Op.notifiesTask (T : TaskHandle_t) : Op → Bool
  | .notify t _ _ => decide (t = T)
  | _ => false

/-- Whether `op` deletes task `T`. -/
def Op.deletesTask (T : TaskHandle_t) : Op → Bool
  | .delete h => decide (h = T)
  | _ => false

/-- Whether `op`, executed in state `k`, is a call by task `T` that blocks it. -/
def Op.blocksIn (k : Kernel) (T : TaskHandle_t) (op : Op) : Bool :=
  op.blocksTask T && decide ((k.step op).state T = eBlocked)

/-- Whether, along the calls `ops` executed from state `k`, task `T` makes no call that
blocks it. -/
def Kernel.noBlockingCall (k : Kernel) (T : TaskHandle_t) : List Op → Bool
  | [] => true
  | op :: ops => !(op.blocksIn k T) && Kernel.noBlockingCall (k.step op) T ops

/-- Scenario A of the test, up to the worker running: the semaphore 7 is created, the
tester (task 1) takes it, creates the worker (task 2) and delays 100 ticks; the worker
is switched in. -/
def scenarioA : List Op :=
  [.semCreate 7, .create 1, .switch 1, .take 1 7 portMAX_DELAY, .create 2, .delay 1 100,
    .switch 2]

/-- Scenario A continued: the worker blocks on the semaphore, 100 ticks pass and the
tester runs again. -/
def scenarioA2 : List Op :=
  scenarioA ++ [.take 2 7 portMAX_DELAY] ++ List.replicate 100 .tick ++ [.switch 1]

/-- A variant of scenario A, an event wait with a finite timeout: the worker takes the
semaphore with a timeout of 50 ticks. -/
def scenarioTimed : List Op := scenarioA ++ [.take 2 7 50]

/-- Scenario B of the test, up to the worker running: the tester (task 1) creates the
worker (task 3) and delays 100 ticks; the worker is switched in. -/
def scenarioB : List Op :=
  [.create 1, .switch 1, .create 3, .delay 1 100, .switch 3]

/-- Scenario B continued: the worker waits for a notification, 100 ticks pass and the
tester runs again. -/
def scenarioB2 : List Op :=
  scenarioB ++ [.notifyWait 3 0 0 portMAX_DELAY] ++ List.replicate 100 .tick ++ [.switch 1]

/-- Scenario C of the test, up to the sleeper running: the tester (task 1) creates the
sleeper (task 4) and delays 100 ticks; the sleeper is switched in. -/
def scenarioC : List Op :=
  [.create 1, .switch 1, .create 4, .delay 1 100, .switch 4]

/-- Scenario A to its end: after the tester has found the worker blocked, it gives the
semaphore and delays; the worker (task 2) runs, takes the semaphore, gives it back
and stays busy for 100 ticks; the tester runs again. -/
def scenarioA3 : List Op :=
  scenarioA2 ++ [.give 7, .delay 1 100, .switch 2, .take 2 7 portMAX_DELAY, .give 7] ++
    List.replicate 100 .tick ++ [.switch 1]

/-- Scenario C continued: the sleeper (task 4) delays 1000 ticks at tick 0, 100 ticks
pass and the tester runs again. -/
def scenarioC2 : List Op :=
  scenarioC ++ [.delay 4 1000] ++ List.replicate 100 .tick ++ [.switch 1]

/-! ## The test program `main.c` -/

/-- Values of type `BaseType_t`. -/
abbrev BaseType_t := Int

/-- Modelled from the spec: `pdTRUE` (projdefs.h is absent), the success result. -/
def pdTRUE : BaseType_t := 1

/-- Modelled from the spec: `pdPASS` (projdefs.h is absent), the success status. -/
def pdPASS : BaseType_t := 1

/-- Modelled from the spec: `tskIDLE_PRIORITY` (task.h is absent), the lowest priority. -/
def tskIDLE_PRIORITY : Nat := 0

/-- The null pointer. -/
def NULL : Nat := 0

/-- Value of `configMINIMAL_STACK_SIZE` in FreeRTOSConfig.h (line 49). -/
def configMINIMAL_STACK_SIZE : Nat := 60

/-- The task functions of `main.c`. -/
inductive TaskFunction where
  | vWaitForSemaphore
  | vWaitForNotification
  | vAlwaysDelay
  | prvTest
  deriving DecidableEq, Repr

/-- An argument passed to `printf` after the format string. -/
inductive Arg where
  | num (n : Nat)
  | str (s : String)
  | tick (t : Option TickType_t)
  deriving DecidableEq, Repr

/-- One entry of the table passed to `vPortDefineHeapRegions` (`HeapRegion_t`): the start of
the region, as an offset into the array `ucHeap` (none for the null pointer), and its
size in bytes. -/
structure HeapRegion_t where
  pucStartAddress : Option Nat
  xSizeInBytes : Nat
  deriving DecidableEq, Repr

/-- The observable actions of the test program: output, kernel calls, process exit. -/
inductive Event where
  | printf (format : String) (args : List Arg)
  | xSemaphoreTake (sem : SemaphoreHandle_t) (xTicksToWait : TickType_t)
  | xSemaphoreGive (sem : SemaphoreHandle_t)
  | xTaskCreate (pxTaskCode : TaskFunction) (pcName : String) (usStackDepth : Nat)
      (pvParameters : Nat) (uxPriority : Nat)
  | vTaskDelay (xTicksToDelay : TickType_t)
  | vTaskGetCurrentBlocker (xTask : TaskHandle_t)
  | eTaskGetState (xTask : TaskHandle_t)
  | xTaskNotifyWait (entry exit : Nat) (xTicksToWait : TickType_t)
  | xTaskNotify (xTask : TaskHandle_t) (ulValue : Nat) (eAction : eNotifyAction)
  | vTaskDelete (xTask : Option TaskHandle_t)
  | xTaskGetCurrentTaskHandle
  | xTaskGetTickCount
  | exit (status : Int)
  | vPortDefineHeapRegions (pxHeapRegions : List HeapRegion_t)
  | vSemaphoreCreateBinary
  | vTaskStartScheduler
  deriving DecidableEq, Repr

/-- Why a function's execution ends without returning to its caller. -/
inductive Halt where
  | exited (status : Int)
  | deleted
  | stalled
  | looping
  deriving DecidableEq, Repr

/-- How an execution ends: it returns a value, or it never returns. -/
inductive Outcome (α : Type) where
  | returned (a : α)
  | halted (h : Halt)
  deriving DecidableEq, Repr

/-- An execution of C code: the actions performed, in order, and how it ended. -/
structure Proc (α : Type) where
  trace : List Event
  outcome : Outcome α
  deriving DecidableEq, Repr

/-- Execution that returns at once. -/
def Proc.pure {α : Type} (a : α) : Proc α := ⟨[], .returned a⟩

/-- Sequencing: the second part runs only if the first returns. -/
def Proc.bind {α β : Type} (p : Proc α) (f : α → Proc β) : Proc β :=
  match p.outcome with
  | .returned a => ⟨p.trace ++ (f a).trace, (f a).outcome⟩
  | .halted h => ⟨p.trace, .halted h⟩

instance : Monad Proc where
  pure := Proc.pure
  bind := Proc.bind

/-- One action that returns. -/
def Proc.emit (e : Event) : Proc Unit := ⟨[e], .returned ()⟩

/-- Execution that stops here for good. -/
def Proc.halt {α : Type} (h : Halt) : Proc α := ⟨[], .halted h⟩

/-- The C library's `exit`: the process terminates with the given status. -/
def exit {α : Type} (status : Int) : Proc α := ⟨[.exit status], .halted (.exited status)⟩

/-- The C library's `printf`. -/
def printf (format : String) (args : List Arg) : Proc Unit := Proc.emit (.printf format args)

/-- Whether the execution printed exactly the text `s` in one `printf` without arguments. -/
def Proc.prints {α : Type} (p : Proc α) (s : String) : Prop := Event.printf s [] ∈ p.trace

instance {α : Type} (p : Proc α) (s : String) : Decidable (p.prints s) := by
  unfold Proc.prints
  infer_instance

/-- What the surroundings of `prvTest` supply: the build configuration, the values of
the globals, and the answer of the kernel to each call, indexed by the source line of
the call. -/
structure TestEnv where
  xSharedSem : SemaphoreHandle_t
  pcFile : String
  lastError : Nat
  assertEnabled : Bool
  includeSuspend : Bool
  xHandleInitial : TaskHandle_t
  self : TaskHandle_t
  take : List BaseType_t
  create : Nat → BaseType_t × TaskHandle_t
  blocker : Nat → TaskBlockedStatus_t
  state : Nat → eTaskState

/-- Embedding of `vAssertCalled` (main.c, lines 315 to 329); `lastError` is the value
`GetLastError()` returns. -/
def vAssertCalled (ulLine : Nat) (pcFileName : String) (lastError : Nat) : Proc Unit := do
  printf "ASSERT! Line %ld, file %s, GetLastError() %ld\r\n"
    [.num ulLine, .str pcFileName, .num lastError]
  printf "Fail.\n" []
  exit 1

/-- Modelled from the spec: the macro `configASSERT`.  The FreeRTOSConfig.h of the test's
directory is absent; the one at hand (corePKCS11 demo, lines 113 to 117) defines the
macro, only when `_DEBUG` is defined, as `if( ( x ) == 0 ) vAssertCalled( ... )`.  So,
when assertions are compiled in (`env.assertEnabled`), the condition is evaluated and
a zero result calls `vAssertCalled` for the line and file of the assertion, passed in
the order in which the definition in main.c takes them (as the calls of lines 263 and
292 do); when they are not, the macro expands to nothing and the condition is not
evaluated.  `line` is the line on which the assertion starts. -/
def configASSERT (env : TestEnv) (line : Nat) (x : Proc Bool) : Proc Unit :=
  if env.assertEnabled then do
    let v ← x
    if v then pure () else vAssertCalled line env.pcFile env.lastError
  else pure ()

/-- The statement `while (pdTRUE != xSemaphoreTake(sem, portMAX_DELAY));` of main.c
(lines 94 and 151), given the results of the successive calls that return; when they
are used up, the next call never returns. -/
def prvTakeLoop (sem : SemaphoreHandle_t) : List BaseType_t → Proc Unit
  | [] => do
    Proc.emit (.xSemaphoreTake sem portMAX_DELAY)
    Proc.halt .stalled
  | r :: rs => do
    Proc.emit (.xSemaphoreTake sem portMAX_DELAY)
    if pdTRUE ≠ r then prvTakeLoop sem rs else pure ()

/-- The statement `while (pdPASS != xTaskNotifyWait(0u, 0u, NULL, portMAX_DELAY));` of
main.c (line 109), given the results of the successive calls that return. -/
def prvNotifyWaitLoop : List BaseType_t → Proc Unit
  | [] => do
    Proc.emit (.xTaskNotifyWait 0 0 portMAX_DELAY)
    Proc.halt .stalled
  | r :: rs => do
    Proc.emit (.xTaskNotifyWait 0 0 portMAX_DELAY)
    if pdPASS ≠ r then prvNotifyWaitLoop rs else pure ()

/-- Embedding of `vWaitForSemaphore` (main.c, lines 91 to 104); `take` lists the results of
its calls of `xSemaphoreTake`.  The empty `while (1)` loop never ends. -/
def vWaitForSemaphore (xSharedSem : SemaphoreHandle_t) (take : List BaseType_t) :
    Proc Unit := do
  printf "[Task][Sem-wait] Waiting for xSharedSem\n" []
  prvTakeLoop xSharedSem take
  printf "[Task][Sem-wait] xSharedSem received\n" []
  Proc.emit (.xSemaphoreGive xSharedSem)
  Proc.halt .looping
  Proc.emit (.vTaskDelete none)
  Proc.halt .deleted

/-- Embedding of `vWaitForNotification` (main.c, lines 106 to 118); `wait` lists the results
of its calls of `xTaskNotifyWait`. -/
def vWaitForNotification (wait : List BaseType_t) : Proc Unit := do
  printf "[Task][notify-wait] Waiting for notification\n" []
  prvNotifyWaitLoop wait
  printf "[Task][notify-wait] notification received\n" []
  Proc.halt .looping
  Proc.emit (.vTaskDelete none)
  Proc.halt .deleted

/-- Embedding of `vAlwaysDelay` (main.c, lines 120 to 130); `ticks` lists what
`xTaskGetTickCount` returns in the successive iterations of the loop that run; the
`vTaskDelay` of the last one does not return.  Ticks are 32-bit. -/
def vAlwaysDelay : List TickType_t → Proc Unit
  | [] => Proc.halt .stalled
  | t :: ts => do
    Proc.emit .xTaskGetTickCount
    printf "[Task][sleeper] Waking up at Tick=%d\n" [.num ((t + 1000) % 2 ^ 32)]
    Proc.emit (.vTaskDelay 1000)
    vAlwaysDelay ts

/-- The call `vTaskDelete(xHandle)` of `prvTest` (main.c, lines 172, 195 and 212).
`vTaskDelete` deletes the calling task when its argument is the null handle or the
caller's own handle, and the caller then does not run on.  `xHandle` can hold such a
value only while no creation has stored a handle in it (`written = false`, the
variable is not initialised): the handle that a successful `xTaskCreate` stores is
that of the task it created. -/
def prvDeleteWorker (env : TestEnv) (written : Bool) (xHandle : TaskHandle_t) : Proc Unit :=
  if written = false ∧ xHandle = NULL then do
    Proc.emit (.vTaskDelete none)
    Proc.halt .deleted
  else if written = false ∧ xHandle = env.self then do
    Proc.emit (.vTaskDelete (some xHandle))
    Proc.halt .deleted
  else Proc.emit (.vTaskDelete (some xHandle))

/-- Embedding of `prvTest` (main.c, lines 134 to 221).  `written` records whether an
`xTaskCreate` has stored a handle in the local `xHandle`, which is not initialised. -/
def prvTest (env : TestEnv) : Proc Unit := do
  (if env.includeSuspend then printf "Testing without suspension...\n" []
    else printf "Testing without suspension...\n" [])
  printf ("Note: Task state management differs when INCLUDE_vTaskSuspend == 1 and when it does not. \n"
    ++ "      Therefore, recompile and test with INCLUDE_vTaskSuspend == 1 and != 1.\n") []
  -- TEST CASE: eBlockForEvent
  prvTakeLoop env.xSharedSem env.take
  let xHandle := env.xHandleInitial
  let written := decide (env.assertEnabled ∧ (env.create 152).1 = pdPASS)
  let xHandle := if env.assertEnabled ∧ (env.create 152).1 = pdPASS then (env.create 152).2
    else xHandle
  configASSERT env 152 (do
    Proc.emit (.xTaskCreate .vWaitForSemaphore "SemWait" configMINIMAL_STACK_SIZE
      (tskIDLE_PRIORITY + 1) NULL)
    pure (decide (pdPASS = (env.create 152).1)))
  Proc.emit (.vTaskDelay 100)
  Proc.emit (.vTaskGetCurrentBlocker xHandle)
  let xStatus := env.blocker 161
  Proc.emit (.eTaskGetState xHandle)
  let state := env.state 162
  configASSERT env 163 (pure (decide (state = eBlocked) && decide (xStatus.eStatus = eBlockedForEvent)))
  configASSERT env 164 (pure (decide (listGET_LIST_OWNER xStatus.pxEventList = some env.xSharedSem)))
  Proc.emit (.xSemaphoreGive env.xSharedSem)
  Proc.emit (.vTaskDelay 100)
  Proc.emit (.vTaskGetCurrentBlocker xHandle)
  let xStatus := env.blocker 169
  Proc.emit (.eTaskGetState xHandle)
  let state := env.state 170
  configASSERT env 171 (pure (decide (state ≠ eBlocked) && decide (xStatus.eStatus = eNotBlocked)))
  prvDeleteWorker env written xHandle
  -- TEST CASE: eBlockForNotification
  let written := written || decide (env.assertEnabled ∧ (env.create 176).1 = pdPASS)
  let xHandle := if env.assertEnabled ∧ (env.create 176).1 = pdPASS then (env.create 176).2
    else xHandle
  configASSERT env 176 (do
    Proc.emit (.xTaskCreate .vWaitForNotification "NoteWait" configMINIMAL_STACK_SIZE
      (tskIDLE_PRIORITY + 1) NULL)
    pure (decide (pdPASS = (env.create 176).1)))
  Proc.emit (.vTaskDelay 100)
  Proc.emit (.vTaskGetCurrentBlocker xHandle)
  let xStatus := env.blocker 185
  Proc.emit (.eTaskGetState xHandle)
  let state := env.state 186
  configASSERT env 187 (pure (decide (state = eBlocked) && decide (xStatus.eStatus = eBlockedForNotification)))
  Proc.emit (.xTaskNotify xHandle 0xDC eNoAction)
  Proc.emit (.vTaskDelay 100)
  Proc.emit (.vTaskGetCurrentBlocker xHandle)
  let xStatus := env.blocker 192
  Proc.emit (.eTaskGetState xHandle)
  let state := env.state 193
  configASSERT env 194 (pure (decide (state ≠ eBlocked) && decide (xStatus.eStatus = eNotBlocked)))
  prvDeleteWorker env written xHandle
  -- TEST CASE: eBlockedForTime
  let written := written || decide (env.assertEnabled ∧ (env.create 199).1 = pdPASS)
  let xHandle := if env.assertEnabled ∧ (env.create 199).1 = pdPASS then (env.create 199).2
    else xHandle
  configASSERT env 199 (do
    Proc.emit (.xTaskCreate .vAlwaysDelay "Sleeper" configMINIMAL_STACK_SIZE
      (tskIDLE_PRIORITY + 1) NULL)
    pure (decide (pdPASS = (env.create 199).1)))
  Proc.emit (.vTaskDelay 100)
  Proc.emit (.vTaskGetCurrentBlocker xHandle)
  let xStatus := env.blocker 208
  Proc.emit (.eTaskGetState xHandle)
  let state := env.state 209
  configASSERT env 210 (pure (decide (state = eBlocked) && decide (xStatus.eStatus = eBlockedForTime)))
  printf "[Task][tester] sleeper task waking up @ tick=%d\n" [.tick xStatus.xUntilTick]
  prvDeleteWorker env written xHandle
  -- TEST CASE: eNotBlocked, when a task calls on itself
  Proc.emit .xTaskGetCurrentTaskHandle
  Proc.emit (.vTaskGetCurrentBlocker env.self)
  let xStatus := env.blocker 216
  configASSERT env 217 (pure (decide (xStatus.eStatus = eNotBlocked)))
  printf "Pass.\n" []
  Proc.emit (.vTaskDelete none)
  Proc.halt .deleted

/-- The condition of the `configASSERT` that starts on the given line of `prvTest`, as the
answers of the kernel determine it (true for a line that holds no assertion). -/
def TestEnv.cond (env : TestEnv) : Nat → Bool
  | 152 => decide (pdPASS = (env.create 152).1)
  | 163 => decide (env.state 162 = eBlocked) &&
      decide ((env.blocker 161).eStatus = eBlockedForEvent)
  | 164 => decide (listGET_LIST_OWNER (env.blocker 161).pxEventList = some env.xSharedSem)
  | 171 => decide (env.state 170 ≠ eBlocked) &&
      decide ((env.blocker 169).eStatus = eNotBlocked)
  | 176 => decide (pdPASS = (env.create 176).1)
  | 187 => decide (env.state 186 = eBlocked) &&
      decide ((env.blocker 185).eStatus = eBlockedForNotification)
  | 194 => decide (env.state 193 ≠ eBlocked) &&
      decide ((env.blocker 192).eStatus = eNotBlocked)
  | 199 => decide (pdPASS = (env.create 199).1)
  | 210 => decide (env.state 209 = eBlocked) &&
      decide ((env.blocker 208).eStatus = eBlockedForTime)
  | 217 => decide ((env.blocker 216).eStatus = eNotBlocked)
  | _ => true

/-- The lines on which the ten assertions of `prvTest` start, in the order of execution. -/
def assertLines : List Nat := [152, 163, 164, 171, 176, 187, 194, 199, 210, 217]

/-- The task function and the name that `prvTest` passes to the `xTaskCreate` of the given
line. -/
def workerOf : Nat → TaskFunction × String
  | 152 => (.vWaitForSemaphore, "SemWait")
  | 176 => (.vWaitForNotification, "NoteWait")
  | _ => (.vAlwaysDelay, "Sleeper")

/-- Value of `mainREGION_1_SIZE` (main.c, line 71). -/
def mainREGION_1_SIZE : Nat := 8201

/-- Value of `mainREGION_2_SIZE` (main.c, line 72). -/
def mainREGION_2_SIZE : Nat := 29905

/-- Value of `mainREGION_3_SIZE` (main.c, line 73). -/
def mainREGION_3_SIZE : Nat := 7607

/-- Value of `configTOTAL_HEAP_SIZE` in FreeRTOSConfig.h (line 50), `2048U * 1024U` as a
`size_t`: the length of the array `ucHeap`. -/
def configTOTAL_HEAP_SIZE : Nat := (2048 * 1024) % 2 ^ 32

/-- Initial value of the local `ulAdditionalOffset` of `prvInitialiseHeap` (main.c, line 346). -/
def ulAdditionalOffset : Nat := 19

/-- The table `xHeapRegions` of `prvInitialiseHeap` (main.c, lines 347 to 354), for region
sizes `s1`, `s2`, `s3` (the three `mainREGION` constants); start addresses are offsets
into `ucHeap`. -/
def xHeapRegions (s1 s2 s3 : Nat) : List HeapRegion_t :=
  [ { pucStartAddress := some 1, xSizeInBytes := s1 },
    { pucStartAddress := some (15 + s1), xSizeInBytes := s2 },
    { pucStartAddress := some (19 + s1 + s2), xSizeInBytes := s3 },
    { pucStartAddress := none, xSizeInBytes := 0 } ]

/-- The width in bits of the type that the compiler of the test (`int` and `long` of 32
bits) gives the decimal constant `n` written without a suffix: a 32-bit type below
2^32, a 64-bit type from there on. -/
def literalWidth (n : Nat) : Nat := if n < 2 ^ 32 then 32 else 64

/-- The sum `ulAdditionalOffset + s1 + s2 + s3` of main.c, line 358, as it is evaluated
from left to right for size constants `s1`, `s2`, `s3`: each addition is made in the
wider of the types of its operands, starting from the 32-bit unsigned type of
`ulAdditionalOffset`, and wraps at that width. -/
def prvHeapSum (s1 s2 s3 : Nat) : Nat :=
  let w1 := max 32 (literalWidth s1)
  let a1 := (ulAdditionalOffset + s1) % 2 ^ w1
  let w2 := max w1 (literalWidth s2)
  let a2 := (a1 + s2) % 2 ^ w2
  let w3 := max w2 (literalWidth s3)
  (a2 + s3) % 2 ^ w3

/-- The condition of the sanity assertion of `prvInitialiseHeap` (main.c, line 358). -/
def prvHeapSanity (s1 s2 s3 : Nat) : Bool :=
  decide (prvHeapSum s1 s2 s3 < configTOTAL_HEAP_SIZE)

/-- Embedding of `prvInitialiseHeap` (main.c, lines 333 to 364), for region sizes `s1`,
`s2`, `s3`. -/
def prvInitialiseHeap (env : TestEnv) (s1 s2 s3 : Nat) : Proc Unit := do
  configASSERT env 358 (pure (prvHeapSanity s1 s2 s3))
  Proc.emit (.vPortDefineHeapRegions (xHeapRegions s1 s2 s3))

/-- Embedding of `main` (main.c, lines 224 to 247).  `schedulerReturns` says whether
`vTaskStartScheduler` returns (it does only when the scheduler could not be started);
otherwise the tasks run from then on and `main` does not continue. -/
def main (env : TestEnv) (schedulerReturns : Bool) : Proc Int := do
  prvInitialiseHeap env mainREGION_1_SIZE mainREGION_2_SIZE mainREGION_3_SIZE
  printf "\nStarting...\n" []
  Proc.emit .vSemaphoreCreateBinary
  configASSERT env 234 (do
    Proc.emit (.xTaskCreate .prvTest "test" configMINIMAL_STACK_SIZE NULL
      (tskIDLE_PRIORITY + 1))
    pure (decide (pdPASS = (env.create 234).1)))
  Proc.emit .vTaskStartScheduler
  (if schedulerReturns then pure () else Proc.halt .stalled)
  printf "\nDone!\n" []
  pure 0

/-- What `vApplicationGetIdleTaskMemory` stores through its three pointer parameters. -/
structure IdleTaskMemory where
  ppxIdleTaskTCBBuffer : Nat
  ppxIdleTaskStackBuffer : Nat
  pulIdleTaskStackSize : Nat
  deriving DecidableEq, Repr

/-- Number of elements of the static array `uxIdleTaskStack` (main.c, line 376). -/
def uxIdleTaskStackLength : Nat := configMINIMAL_STACK_SIZE

/-- Embedding of `vApplicationGetIdleTaskMemory` (main.c, lines 370 to 389);
`xIdleTaskTCB` and `uxIdleTaskStack` are the addresses of its two static objects. -/
def vApplicationGetIdleTaskMemory (xIdleTaskTCB uxIdleTaskStack : Nat) : IdleTaskMemory :=
  { ppxIdleTaskTCBBuffer := xIdleTaskTCB
    ppxIdleTaskStackBuffer := uxIdleTaskStack
    pulIdleTaskStackSize := configMINIMAL_STACK_SIZE % 2 ^ 32 }

/-! ## Concrete runs of the test program -/

/-- A run of the test in which the kernel answers every call as the scenarios
expect: the workers are tasks 2, 3 and 4, the sleeper is reported to wake at tick 1100. -/
def envPass : TestEnv :=
  { xSharedSem := 7
    pcFile := "main.c"
    lastError := 0
    assertEnabled := true
    includeSuspend := true
    xHandleInitial := 0
    self := 1
    take := [1]
    create := fun l => (1, if l = 152 then 2 else if l = 176 then 3 else 4)
    blocker := fun l =>
      if l = 161 then { eStatus := eBlockedForEvent, pxEventList := some ⟨7⟩, xUntilTick := none }
      else if l = 185 then
        { eStatus := eBlockedForNotification, pxEventList := none, xUntilTick := none }
      else if l = 208 then
        { eStatus := eBlockedForTime, pxEventList := none, xUntilTick := some 1100 }
      else { eStatus := eNotBlocked, pxEventList := none, xUntilTick := none }
    state := fun l => if l = 162 ∨ l = 186 ∨ l = 209 then eBlocked else eReady }

/-- The environment `env` with the wake tick that the classifier reports in Scenario C
(the call of line 208) replaced by `u`. -/
def TestEnv.withUntilTick (env : TestEnv) (u : Option TickType_t) : TestEnv :=
  { env with
    blocker := fun l =>
      if l = 208 then { env.blocker 208 with xUntilTick := u } else env.blocker l }

/-- Two executions end the same way and print the same argument-free texts. -/
def Proc.sameVerdict {α : Type} (p q : Proc α) : Prop :=
  p.outcome = q.outcome ∧ ∀ s, p.prints s ↔ q.prints s

/-- The run `envPass` with the classifier reporting not blocked for the waiting worker
of Scenario B (the call of line 185), so that the assertion of line 187 fails. -/
def envFail187 : TestEnv :=
  { envPass with
    blocker := fun l =>
      if l = 185 then { eStatus := eNotBlocked, pxEventList := none, xUntilTick := none }
      else envPass.blocker l }

/-- The run `envPass` with the creation of the notification worker (line 176) failing
with status 0. -/
def envCreateFail176 : TestEnv :=
  { envPass with create := fun l => if l = 176 then (0, 0) else envPass.create l }

/-- The run `envPass` with the creation of the tester in `main` (line 234) failing with
status -1. -/
def envCreateFail234 : TestEnv :=
  { envPass with create := fun l => if l = 234 then (-1, 0) else envPass.create l }

/-- The run `envPass` with the initial take returning failure twice before it succeeds. -/
def envRetry : TestEnv := { envPass with take := [0, 0, 1] }

/-- The number of calls the loop `while (ok != call())` makes for the results `rs` of
the calls that return: one for each leading result other than `ok`, and one more. -/
def loopCalls (ok : BaseType_t) (rs : List BaseType_t) : Nat :=
  (rs.takeWhile (fun r => decide (ok ≠ r))).length + 1

/-- Every action of the execution satisfies `P`. -/
def Proc.allEvents {α : Type} (P : Event → Prop) (p : Proc α) : Prop :=
  ∀ e ∈ p.trace, P e

/-- The bytes `[start, start + size)` of a region lie inside an array of `len` bytes. -/
def HeapRegion_t.inside (r : HeapRegion_t) (len : Nat) : Prop :=
  ∃ start, r.pucStartAddress = some start ∧ start + r.xSizeInBytes ≤ len

/-- Value of `configUSE_STATS_FORMATTING_FUNCTIONS` as FreeRTOSConfig.h defines it
(line 111). -/
def configUSE_STATS_FORMATTING_FUNCTIONS : Nat := 1

/-- Value of `configUSE_STATS_FORMATTING_FUNCTIONS` that the comment above the
definition documents (FreeRTOSConfig.h, lines 104 to 110: "is set to 2 so the
formatting functions are included without the stdio.h being included in tasks.c"). -/
def configUSE_STATS_FORMATTING_FUNCTIONS_documented : Nat := 2

/-- The action is a call of `xTaskCreate`. -/
def Event.isCreate : Event → Bool
  | .xTaskCreate _ _ _ _ _ => true
  | _ => false

/-- The action creates or deletes a task, or prints "Pass.". -/
def Event.isLifecycle : Event → Bool
  | .xTaskCreate _ _ _ _ _ => true
  | .vTaskDelete _ => true
  | .printf format _ => decide (format = "Pass.\n")
  | _ => false

/-- The two texts that `prvTest` prints first (main.c, lines 140 to 146). -/
def prvTestHeader : List Event :=
  [.printf "Testing without suspension...\n" [],
    .printf ("Note: Task state management differs when INCLUDE_vTaskSuspend == 1 and when it does not. \n"
      ++ "      Therefore, recompile and test with INCLUDE_vTaskSuspend == 1 and != 1.\n") []]

/-- The actions of lines 152 to 220 of `prvTest` in the order of the source text, for
the values `h1`, `h2`, `h3` of `xHandle` in the three scenarios. -/
def prvTestBody (env : TestEnv) (h1 h2 h3 : TaskHandle_t) : List Event :=
  [ .xTaskCreate .vWaitForSemaphore "SemWait" configMINIMAL_STACK_SIZE (tskIDLE_PRIORITY + 1) NULL,
    .vTaskDelay 100, .vTaskGetCurrentBlocker h1, .eTaskGetState h1,
    .xSemaphoreGive env.xSharedSem,
    .vTaskDelay 100, .vTaskGetCurrentBlocker h1, .eTaskGetState h1,
    .vTaskDelete (some h1),
    .xTaskCreate .vWaitForNotification "NoteWait" configMINIMAL_STACK_SIZE
      (tskIDLE_PRIORITY + 1) NULL,
    .vTaskDelay 100, .vTaskGetCurrentBlocker h2, .eTaskGetState h2,
    .xTaskNotify h2 0xDC eNoAction,
    .vTaskDelay 100, .vTaskGetCurrentBlocker h2, .eTaskGetState h2,
    .vTaskDelete (some h2),
    .xTaskCreate .vAlwaysDelay "Sleeper" configMINIMAL_STACK_SIZE (tskIDLE_PRIORITY + 1) NULL,
    .vTaskDelay 100, .vTaskGetCurrentBlocker h3, .eTaskGetState h3,
    .printf "[Task][tester] sleeper task waking up @ tick=%d\n"
      [.tick (env.blocker 208).xUntilTick],
    .vTaskDelete (some h3),
    .xTaskGetCurrentTaskHandle, .vTaskGetCurrentBlocker env.self,
    .printf "Pass.\n" [],
    .vTaskDelete none ]

/-- The line of main.c on which the task function `f` is passed to `xTaskCreate`. -/
def createLine : TaskFunction → Nat
  | .vWaitForSemaphore => 152
  | .vWaitForNotification => 176
  | .vAlwaysDelay => 199
  | .prvTest => 234

/-- The tasks created by the tester that exist after one of its actions, given those
that existed before it (`alive`): an `xTaskCreate` that returns `pdPASS` adds the task
whose handle it stored, `vTaskDelete(xHandle)` removes the task of that handle. -/
def workersAfter (env : TestEnv) (alive : List TaskHandle_t) : Event → List TaskHandle_t
  | .xTaskCreate f _ _ _ _ =>
    if (env.create (createLine f)).1 = pdPASS then (env.create (createLine f)).2 :: alive
    else alive
  | .vTaskDelete (some h) => alive.filter (fun t => decide (t ≠ h))
  | _ => alive

/-- Before and after each of the actions `tr`, performed from the tasks `alive`, at
most one created task exists. -/
def atMostOneWorker (env : TestEnv) : List TaskHandle_t → List Event → Prop
  | alive, [] => alive.length ≤ 1
  | alive, e :: tr => alive.length ≤ 1 ∧ atMostOneWorker env (workersAfter env alive e) tr

theorem Kernel.Inv.init : Kernel.init.Inv := by
  constructor
  · intro t h
    simp [Kernel.init] at h
  · intro o _
    rfl

theorem Kernel.Inv.semCreate {k : Kernel} (h : k.Inv) (sem : SemaphoreHandle_t) :
    (vSemaphoreCreateBinary k sem).Inv := by
  unfold vSemaphoreCreateBinary
  split
  · exact h
  · constructor
    · intro t ht
      apply h.blocked t
      rcases ht with ⟨o, ho⟩ | ht | ht
      · left
        simp only at ho
        split at ho
        · simp at ho
        · exact ⟨o, ho⟩
      · exact Or.inr (Or.inl ht)
      · exact Or.inr (Or.inr ht)
    · intro o ho
      simp only [List.mem_append, List.mem_singleton, not_or] at ho
      simp only [ho.2, if_false]
      exact h.known o ho.1

theorem Kernel.Inv.take {k : Kernel} (h : k.Inv) (c : TaskHandle_t) (sem : SemaphoreHandle_t)
    (n : TickType_t) : (xSemaphoreTake k c sem n).Inv := by
  unfold xSemaphoreTake
  split
  · rename_i hg
    split
    · exact ⟨h.blocked, h.known⟩
    · split
      · exact h
      · constructor
        · intro t ht
          simp only
          by_cases htc : t = c
          · simp [htc]
          · simp only [htc, if_false] at ht ⊢
            apply h.blocked t
            rcases ht with ⟨o, ho⟩ | ht | ht
            · left
              split at ho
              · simp only [List.mem_append, List.mem_singleton, htc, or_false] at ho
                exact ⟨sem, ho⟩
              · exact ⟨o, ho⟩
            · exact Or.inr (Or.inl ht)
            · exact Or.inr (Or.inr ht)
        · intro o ho
          simp only at ho ⊢
          have : o ≠ sem := fun e => ho (e ▸ hg.2)
          simp only [this, if_false]
          exact h.known o ho
  · exact h

theorem mem_prvRetract {k : Kernel} {t x : TaskHandle_t} {o : SemaphoreHandle_t} :
    x ∈ (prvRetract k t).waitList o ↔ x ∈ k.waitList o ∧ x ≠ t := by
  simp [prvRetract, List.mem_filter]

/-- A state that keeps a subset of the registrations of an invariant state, and the
state of every task that is still registered, satisfies the invariant. -/
theorem Kernel.Inv.shrink {k k2 : Kernel} (h : k.Inv)
    (hw : ∀ o x, x ∈ k2.waitList o → x ∈ k.waitList o ∧ k2.state x = k.state x)
    (hn : ∀ x, k2.notifyWait x = true → k.notifyWait x = true ∧ k2.state x = k.state x)
    (hd : ∀ x, k2.deadline x ≠ none → k.deadline x ≠ none ∧ k2.state x = k.state x)
    (ho : k2.objs = k.objs) : k2.Inv := by
  constructor
  · intro t ht
    rcases ht with ⟨o, hm⟩ | ht | ht
    · rw [(hw o t hm).2]
      exact h.blocked t (Or.inl ⟨o, (hw o t hm).1⟩)
    · rw [(hn t ht).2]
      exact h.blocked t (Or.inr (Or.inl (hn t ht).1))
    · rw [(hd t ht).2]
      exact h.blocked t (Or.inr (Or.inr (hd t ht).1))
  · intro o hno
    rw [ho] at hno
    have := h.known o hno
    cases hl : k2.waitList o with
    | nil => rfl
    | cons x xs =>
      have hx := (hw o x (by rw [hl]; exact List.mem_cons_self x xs)).1
      rw [this] at hx
      cases hx

theorem Kernel.Inv.wake {k : Kernel} (h : k.Inv) (t : TaskHandle_t) : (prvWake k t).Inv := by
  apply h.shrink
  · intro o x hx
    have := mem_prvRetract.1 hx
    exact ⟨this.1, by simp [prvWake, this.2]⟩
  · intro x hx
    by_cases hxt : x = t
    · simp [prvWake, prvRetract, hxt] at hx
    · simpa [prvWake, prvRetract, hxt] using hx
  · intro x hx
    by_cases hxt : x = t
    · simp [prvWake, prvRetract, hxt] at hx
    · simpa [prvWake, prvRetract, hxt] using hx
  · rfl

theorem Kernel.Inv.delete {k : Kernel} (h : k.Inv) (t : TaskHandle_t) :
    (vTaskDelete k t).Inv := by
  apply h.shrink
  · intro o x hx
    have := mem_prvRetract.1 hx
    exact ⟨this.1, by simp [vTaskDelete, this.2]⟩
  · intro x hx
    by_cases hxt : x = t
    · simp [vTaskDelete, prvRetract, hxt] at hx
    · simpa [vTaskDelete, prvRetract, hxt] using hx
  · intro x hx
    by_cases hxt : x = t
    · simp [vTaskDelete, prvRetract, hxt] at hx
    · simpa [vTaskDelete, prvRetract, hxt] using hx
  · rfl

theorem Kernel.Inv.give {k : Kernel} (h : k.Inv) (sem : SemaphoreHandle_t) :
    (xSemaphoreGive k sem).Inv := by
  unfold xSemaphoreGive
  split
  · split
    · exact ⟨h.blocked, h.known⟩
    · apply Kernel.Inv.wake
      exact ⟨h.blocked, h.known⟩
  · exact h

theorem Kernel.Inv.delay {k : Kernel} (h : k.Inv) (c : TaskHandle_t) (n : TickType_t) :
    (vTaskDelay k c n).Inv := by
  unfold vTaskDelay
  split
  · constructor
    · intro t ht
      simp only
      by_cases htc : t = c
      · simp [htc]
      · simp only [htc, if_false] at ht ⊢
        exact h.blocked t ht
    · exact h.known
  · exact h

theorem Kernel.Inv.notifyWait {k : Kernel} (h : k.Inv) (c : TaskHandle_t) (e x : Nat)
    (n : TickType_t) : (xTaskNotifyWait k c e x n).Inv := by
  unfold xTaskNotifyWait
  split
  · split
    · exact ⟨h.blocked, h.known⟩
    · split
      · exact ⟨h.blocked, h.known⟩
      · constructor
        · intro t ht
          simp only
          by_cases htc : t = c
          · simp [htc]
          · simp only [htc, if_false] at ht ⊢
            exact h.blocked t ht
        · exact h.known
  · exact h

theorem Kernel.Inv.notify {k : Kernel} (h : k.Inv) (t : TaskHandle_t) (v : Nat)
    (a : eNotifyAction) : (xTaskNotify k t v a).Inv := by
  unfold xTaskNotify
  split
  · exact h
  · split
    · apply Kernel.Inv.wake
      exact ⟨h.blocked, h.known⟩
    · exact ⟨h.blocked, h.known⟩

theorem Kernel.Inv.create {k : Kernel} (h : k.Inv) (t : TaskHandle_t) :
    (xTaskCreate k t).Inv := by
  unfold xTaskCreate
  split
  · rename_i hd
    constructor
    · intro x hx
      simp only at hx ⊢
      have hb := h.blocked x hx
      by_cases hxt : x = t
      · rw [hxt, hd] at hb
        cases hb
      · simpa [hxt] using hb
    · exact h.known
  · exact h

theorem Kernel.Inv.tick {k : Kernel} (h : k.Inv) : (xTaskIncrementTick k).Inv := by
  apply h.shrink
  · intro o x hx
    simp only [xTaskIncrementTick, List.mem_filter, Bool.not_eq_true'] at hx
    exact ⟨hx.1, by simp [xTaskIncrementTick, hx.2]⟩
  · intro x hx
    simp only [xTaskIncrementTick] at hx ⊢
    split at hx
    · cases hx
    · rename_i hdue
      exact ⟨hx, by simp [hdue]⟩
  · intro x hx
    simp only [xTaskIncrementTick] at hx ⊢
    split at hx
    · exact absurd rfl hx
    · rename_i hdue
      exact ⟨hx, by simp [hdue]⟩
  · rfl

theorem Kernel.Inv.switch {k : Kernel} (h : k.Inv) (t : TaskHandle_t) :
    (vTaskSwitchContext k t).Inv := by
  unfold vTaskSwitchContext
  split
  · rename_i hr
    constructor
    · intro x hx
      simp only at hx ⊢
      have hb := h.blocked x hx
      by_cases hxt : x = t
      · rw [hxt, hr] at hb
        cases hb
      · simp [hxt, hb]
    · exact h.known
  · exact h

theorem Kernel.Inv.step {k : Kernel} (h : k.Inv) (op : Op) : (k.step op).Inv := by
  cases op with
  | semCreate sem => exact h.semCreate sem
  | take c sem n => exact h.take c sem n
  | give sem => exact h.give sem
  | delay c n => exact h.delay c n
  | notifyWait c e x n => exact h.notifyWait c e x n
  | notify t v a => exact h.notify t v a
  | create t => exact h.create t
  | delete t => exact h.delete t
  | tick => exact h.tick
  | switch t => exact h.switch t
  | getBlocker _ => exact h
  | getState _ => exact h

theorem Kernel.Inv.run {k : Kernel} (h : k.Inv) (ops : List Op) : (k.run ops).Inv := by
  induction ops generalizing k with
  | nil => exact h
  | cons op ops ih => exact ih (h.step op)

theorem Kernel.sameBlocking_refl (k : Kernel) (T : TaskHandle_t) : k.sameBlocking k T :=
  ⟨fun _ => Iff.rfl, rfl, rfl, rfl⟩

theorem sameBlocking_prvWake {k : Kernel} {t T : TaskHandle_t} (h : T ≠ t) :
    k.sameBlocking (prvWake k t) T := by
  refine ⟨fun o => ?_, ?_, ?_, ?_⟩
  · show T ∈ (prvRetract k t).waitList o ↔ _
    rw [mem_prvRetract]
    exact ⟨fun hh => hh.1, fun hh => ⟨hh, h⟩⟩
  · simp [prvWake, prvRetract, h]
  · simp [prvWake, prvRetract, h]
  · simp [prvWake, h]

/-- A Blocked task keeps its registrations and its state through every kernel call
that neither deletes it nor wakes it. -/
theorem Kernel.step_frame_blocked {k : Kernel} (hinv : k.Inv) {T : TaskHandle_t} {op : Op}
    (hb : k.state T = eBlocked) (hdel : op ≠ .delete T)
    (hnot : ∀ v a, op = .notify T v a → k.notifyWait T = false)
    (hgive : ∀ s, op = .give s → (k.waitList s).head? ≠ some T)
    (htick : op = .tick → prvDue k (k.xTickCount + 1) T = false) :
    k.sameBlocking (k.step op) T := by
  cases op with
  | semCreate sem =>
    simp only [Kernel.step, vSemaphoreCreateBinary]
    split
    · exact k.sameBlocking_refl T
    · rename_i hs
      refine ⟨fun o => ?_, rfl, rfl, rfl⟩
      simp only
      split
      · rename_i ho
        simp [ho, hinv.known sem hs]
      · exact Iff.rfl
  | take c sem n =>
    simp only [Kernel.step, xSemaphoreTake]
    split
    · rename_i hg
      have hc : T ≠ c := fun e => by rw [e, hg.1] at hb; cases hb
      split
      · exact ⟨fun _ => Iff.rfl, rfl, rfl, rfl⟩
      · split
        · exact k.sameBlocking_refl T
        · refine ⟨fun o => ?_, rfl, ?_, ?_⟩
          · simp only
            split
            · rename_i ho
              simp [ho, hc]
            · exact Iff.rfl
          · simp [hc]
          · simp [hc]
    · exact k.sameBlocking_refl T
  | give sem =>
    simp only [Kernel.step, xSemaphoreGive]
    split
    · split
      · exact ⟨fun _ => Iff.rfl, rfl, rfl, rfl⟩
      · rename_i t ts hl
        have ht : T ≠ t := fun e => by
          apply hgive sem rfl
          rw [hl, e]
          rfl
        exact sameBlocking_prvWake (k := { k with available := _ }) ht
    · exact k.sameBlocking_refl T
  | delay c n =>
    simp only [Kernel.step, vTaskDelay]
    split
    · rename_i hg
      have hc : T ≠ c := fun e => by rw [e, hg] at hb; cases hb
      exact ⟨fun _ => Iff.rfl, rfl, by simp [hc], by simp [hc]⟩
    · exact k.sameBlocking_refl T
  | notifyWait c e x n =>
    simp only [Kernel.step, xTaskNotifyWait]
    split
    · rename_i hg
      have hc : T ≠ c := fun e => by rw [e, hg] at hb; cases hb
      split
      · exact ⟨fun _ => Iff.rfl, rfl, rfl, rfl⟩
      · split
        · exact ⟨fun _ => Iff.rfl, rfl, rfl, rfl⟩
        · exact ⟨fun _ => Iff.rfl, by simp [hc], by simp [hc], by simp [hc]⟩
    · exact k.sameBlocking_refl T
  | notify t v a =>
    simp only [Kernel.step, xTaskNotify]
    split
    · exact k.sameBlocking_refl T
    · split
      · rename_i hw
        have ht : T ≠ t := fun e => by
          have := hnot v a (by rw [e])
          rw [e, hw] at this
          cases this
        exact sameBlocking_prvWake (k := { k with value := _ }) ht
      · exact ⟨fun _ => Iff.rfl, rfl, rfl, rfl⟩
  | create h =>
    simp only [Kernel.step, xTaskCreate]
    split
    · rename_i hg
      have hc : T ≠ h := fun e => by rw [e, hg] at hb; cases hb
      exact ⟨fun _ => Iff.rfl, rfl, rfl, by simp [hc]⟩
    · exact k.sameBlocking_refl T
  | delete h =>
    have hc : T ≠ h := fun e => hdel (by rw [e])
    refine ⟨fun o => ?_, ?_, ?_, ?_⟩
    · show T ∈ (prvRetract k h).waitList o ↔ _
      rw [mem_prvRetract]
      exact ⟨fun hh => hh.1, fun hh => ⟨hh, hc⟩⟩
    · simp [Kernel.step, vTaskDelete, prvRetract, hc]
    · simp [Kernel.step, vTaskDelete, prvRetract, hc]
    · simp [Kernel.step, vTaskDelete, hc]
  | tick =>
    have hd := htick rfl
    refine ⟨fun o => ?_, ?_, ?_, ?_⟩
    · simp [Kernel.step, xTaskIncrementTick, List.mem_filter, hd]
    · simp [Kernel.step, xTaskIncrementTick, hd]
    · simp [Kernel.step, xTaskIncrementTick, hd]
    · simp [Kernel.step, xTaskIncrementTick, hd]
  | switch t =>
    simp only [Kernel.step, vTaskSwitchContext]
    split
    · rename_i hg
      have hc : T ≠ t := fun e => by rw [e, hg] at hb; cases hb
      exact ⟨fun _ => Iff.rfl, rfl, rfl, by simp [hc, hb]⟩
    · exact k.sameBlocking_refl T
  | getBlocker _ => exact k.sameBlocking_refl T
  | getState _ => exact k.sameBlocking_refl T

/-- A task that is not Blocked stays so through every kernel call that is not a
blocking call of its own. -/
theorem Kernel.step_not_blocked {k : Kernel} {T : TaskHandle_t} {op : Op}
    (hb : k.state T ≠ eBlocked) (hop : op.blocksTask T = false) :
    (k.step op).state T ≠ eBlocked := by
  cases op with
  | semCreate sem =>
    simp only [Kernel.step, vSemaphoreCreateBinary]
    split <;> exact hb
  | take c sem n =>
    have hc : T ≠ c := fun e => by simp [Op.blocksTask, e] at hop
    simp only [Kernel.step, xSemaphoreTake]
    split
    · split
      · exact hb
      · split
        · exact hb
        · simpa [hc] using hb
    · exact hb
  | give sem =>
    simp only [Kernel.step, xSemaphoreGive]
    split
    · split
      · exact hb
      · simp only [prvWake]
        split
        · simp
        · exact hb
    · exact hb
  | delay c n =>
    have hc : T ≠ c := fun e => by simp [Op.blocksTask, e] at hop
    simp only [Kernel.step, vTaskDelay]
    split
    · simpa [hc] using hb
    · exact hb
  | notifyWait c e x n =>
    have hc : T ≠ c := fun e => by simp [Op.blocksTask, e] at hop
    simp only [Kernel.step, xTaskNotifyWait]
    split
    · split
      · exact hb
      · split
        · exact hb
        · simpa [hc] using hb
    · exact hb
  | notify t v a =>
    simp only [Kernel.step, xTaskNotify]
    split
    · exact hb
    · split
      · simp only [prvWake]
        split
        · simp
        · exact hb
      · exact hb
  | create h =>
    simp only [Kernel.step, xTaskCreate]
    split
    · simp only
      split
      · simp
      · exact hb
    · exact hb
  | delete h =>
    simp only [Kernel.step, vTaskDelete]
    split
    · simp
    · exact hb
  | tick =>
    simp only [Kernel.step, xTaskIncrementTick]
    split
    · simp
    · exact hb
  | switch t =>
    simp only [Kernel.step, vTaskSwitchContext]
    split
    · simp only
      split
      · simp
      · split
        · simp
        · exact hb
    · exact hb
  | getBlocker _ => exact hb
  | getState _ => exact hb

/-- The tick count is advanced by the tick, by one, and by no other call. -/
theorem Kernel.step_tickCount (k : Kernel) (op : Op) :
    (k.step op).xTickCount = if op = .tick then k.xTickCount + 1 else k.xTickCount := by
  cases op <;> simp [Kernel.step, vSemaphoreCreateBinary, xSemaphoreTake, xSemaphoreGive,
    vTaskDelay, xTaskNotifyWait, xTaskNotify, xTaskCreate, vTaskDelete, xTaskIncrementTick,
    vTaskSwitchContext, prvWake, prvRetract] <;> (repeat' split) <;> rfl

theorem prvEventObject_none {k : Kernel} {T : TaskHandle_t} (h : ∀ o, T ∉ k.waitList o) :
    prvEventObject k T = none := by
  unfold prvEventObject
  rw [List.find?_eq_none]
  intro o _
  simp [h o]

theorem prvEventObject_mem {k : Kernel} {T : TaskHandle_t} {o : SemaphoreHandle_t}
    (h : prvEventObject k T = some o) : o ∈ k.objs ∧ T ∈ k.waitList o := by
  unfold prvEventObject at h
  have h1 := List.find?_some h
  have h2 := List.mem_of_find?_eq_some h
  exact ⟨h2, by simpa using h1⟩

/-- In a state that satisfies the invariant, a task that is not Blocked is classified
as not blocked. -/
theorem classify_of_not_blocked {k : Kernel} (hinv : k.Inv) {T : TaskHandle_t}
    (hb : k.state T ≠ eBlocked) :
    vTaskGetCurrentBlocker k T =
      { eStatus := eNotBlocked, pxEventList := none, xUntilTick := none } := by
  have h1 : ∀ o, T ∉ k.waitList o := fun o hm => hb (hinv.blocked T (Or.inl ⟨o, hm⟩))
  have h2 : k.notifyWait T = false := by
    cases hn : k.notifyWait T with
    | false => rfl
    | true => exact absurd (hinv.blocked T (Or.inr (Or.inl hn))) hb
  have h3 : k.deadline T = none := by
    cases hd : k.deadline T with
    | none => rfl
    | some w => exact absurd (hinv.blocked T (Or.inr (Or.inr (by rw [hd]; simp)))) hb
  simp [vTaskGetCurrentBlocker, prvEventObject_none h1, h2, h3]

theorem Kernel.run_awake {k : Kernel} {T : TaskHandle_t} {ops : List Op}
    (hb : k.state T ≠ eBlocked) (hop : k.noBlockingCall T ops = true) :
    (k.run ops).state T ≠ eBlocked := by
  induction ops generalizing k with
  | nil => exact hb
  | cons op ops ih =>
    simp only [Kernel.noBlockingCall, Bool.and_eq_true, Bool.not_eq_true', Op.blocksIn,
      Bool.and_eq_false_iff, decide_eq_false_iff_not] at hop
    apply ih _ hop.2
    rcases hop.1 with h | h
    · exact Kernel.step_not_blocked hb h
    · exact h

/-- The classification of a task that is on no wait list. -/
theorem classify_off_lists {k : Kernel} {T : TaskHandle_t} (h : ∀ o, T ∉ k.waitList o) :
    vTaskGetCurrentBlocker k T =
      if k.notifyWait T then
        { eStatus := eBlockedForNotification, pxEventList := none, xUntilTick := none }
      else
        match k.deadline T with
        | some w => { eStatus := eBlockedForTime, pxEventList := none, xUntilTick := some w }
        | none => { eStatus := eNotBlocked, pxEventList := none, xUntilTick := none } := by
  simp [vTaskGetCurrentBlocker, prvEventObject_none h]

/-- A task blocked only in a notification wait without deadline stays so through every
sequence of kernel calls that neither notifies nor deletes it. -/
theorem Kernel.run_notify_blocked {k : Kernel} (hinv : k.Inv) {T : TaskHandle_t}
    (h1 : ∀ o, T ∉ k.waitList o) (h2 : k.notifyWait T = true) (h3 : k.deadline T = none)
    (h4 : k.state T = eBlocked) (ops : List Op)
    (hops : ∀ op ∈ ops, op.notifiesTask T = false ∧ op.deletesTask T = false) :
    (∀ o, T ∉ (k.run ops).waitList o) ∧ (k.run ops).notifyWait T = true ∧
      (k.run ops).deadline T = none ∧ (k.run ops).state T = eBlocked := by
  induction ops generalizing k with
  | nil => exact ⟨h1, h2, h3, h4⟩
  | cons op ops ih =>
    have hop := hops op (List.mem_cons_self op ops)
    have hs := @Kernel.step_frame_blocked k hinv T op h4
      (fun e => by simp [e, Op.deletesTask] at hop)
      (fun v a e => by simp [e, Op.notifiesTask] at hop)
      (fun s _ hh => by
        have hm : T ∈ k.waitList s := by
          cases hl : k.waitList s with
          | nil => rw [hl] at hh; cases hh
          | cons x xs =>
            rw [hl] at hh
            simp only [List.head?_cons, Option.some.injEq] at hh
            rw [hh]
            exact List.mem_cons_self T xs
        exact h1 s hm)
      (fun _ => by simp [prvDue, h3])
    obtain ⟨s1, s2, s3, s4⟩ := hs
    exact ih (hinv.step op) (fun o hm => h1 o ((s1 o).1 hm)) (by rw [s2, h2]) (by rw [s3, h3])
      (by rw [s4, h4]) (fun o ho => hops o (List.mem_cons_of_mem op ho))

/-- Kernel calls never turn the tick count back. -/
theorem Kernel.run_tickCount_le (k : Kernel) (ops : List Op) :
    k.xTickCount ≤ (k.run ops).xTickCount := by
  induction ops generalizing k with
  | nil => exact Nat.le_refl _
  | cons op ops ih =>
    have h1 := ih (k.step op)
    have h2 := k.step_tickCount op
    have h3 : k.xTickCount ≤ (k.step op).xTickCount := by
      rw [h2]
      split
      · exact Nat.le_succ _
      · exact Nat.le_refl _
    exact Nat.le_trans h3 h1

/-- One kernel call on a task blocked only by a deadline `w` that lies ahead: unless
the call deletes the task, afterwards either the task is blocked as before and the
deadline still lies ahead, or tick `w` is reached and the task is Ready. -/
theorem Kernel.step_time_blocked {k : Kernel} (hinv : k.Inv) {T : TaskHandle_t}
    {w : TickType_t} (h1 : ∀ o, T ∉ k.waitList o) (h2 : k.notifyWait T = false)
    (h3 : k.deadline T = some w) (h4 : k.state T = eBlocked) (h5 : k.xTickCount < w)
    (op : Op) (hop : op.deletesTask T = false) :
    ((∀ o, T ∉ (k.step op).waitList o) ∧ (k.step op).notifyWait T = false ∧
        (k.step op).deadline T = some w ∧ (k.step op).state T = eBlocked ∧
        (k.step op).xTickCount < w) ∨
      (w ≤ (k.step op).xTickCount ∧ (k.step op).state T = eReady) := by
  by_cases hdue : op = .tick ∧ w ≤ k.xTickCount + 1
  · right
    obtain ⟨hop1, hw⟩ := hdue
    subst hop1
    have hd : prvDue k (k.xTickCount + 1) T = true := by simp [prvDue, h3, hw]
    exact ⟨by simpa [Kernel.step, xTaskIncrementTick] using hw,
      by simp [Kernel.step, xTaskIncrementTick, hd]⟩
  · left
    have hs := @Kernel.step_frame_blocked k hinv T op h4
      (fun e => by simp [e, Op.deletesTask] at hop)
      (fun _ _ _ => h2)
      (fun s _ hh => by
        have hm : T ∈ k.waitList s := by
          cases hl : k.waitList s with
          | nil => rw [hl] at hh; cases hh
          | cons x xs =>
            rw [hl] at hh
            simp only [List.head?_cons, Option.some.injEq] at hh
            rw [hh]
            exact List.mem_cons_self T xs
        exact h1 s hm)
      (fun e => by
        have : ¬ w ≤ k.xTickCount + 1 := fun hw => hdue ⟨e, hw⟩
        simp [prvDue, h3, this])
    obtain ⟨s1, s2, s3, s4⟩ := hs
    refine ⟨fun o hm => h1 o ((s1 o).1 hm), by rw [s2, h2], by rw [s3, h3], by rw [s4, h4], ?_⟩
    rw [k.step_tickCount op]
    split
    · rename_i e
      have : ¬ w ≤ k.xTickCount + 1 := fun hw => hdue ⟨e, hw⟩
      exact Nat.lt_of_not_le this
    · exact h5

/-- A task blocked only by a deadline `w` stays so, through every sequence of kernel
calls that does not delete it, for as long as the tick count is below `w`. -/
theorem Kernel.run_time_blocked {k : Kernel} (hinv : k.Inv) {T : TaskHandle_t}
    {w : TickType_t} (h1 : ∀ o, T ∉ k.waitList o) (h2 : k.notifyWait T = false)
    (h3 : k.deadline T = some w) (h4 : k.state T = eBlocked)
    (ops : List Op) (hops : ∀ op ∈ ops, op.deletesTask T = false)
    (hlt : (k.run ops).xTickCount < w) :
    (∀ o, T ∉ (k.run ops).waitList o) ∧ (k.run ops).notifyWait T = false ∧
      (k.run ops).deadline T = some w ∧ (k.run ops).state T = eBlocked := by
  induction ops generalizing k with
  | nil => exact ⟨h1, h2, h3, h4⟩
  | cons op ops ih =>
    have hle : (k.step op).xTickCount ≤ ((k.step op).run ops).xTickCount :=
      Kernel.run_tickCount_le _ _
    have hlt1 : (k.step op).xTickCount < w := Nat.lt_of_le_of_lt hle hlt
    have h5 : k.xTickCount < w :=
      Nat.lt_of_le_of_lt (Kernel.run_tickCount_le k [op]) hlt1
    rcases Kernel.step_time_blocked hinv h1 h2 h3 h4 h5 op
      (hops op (List.mem_cons_self op ops)) with ⟨s1, s2, s3, s4, _⟩ | ⟨s1, _⟩
    · exact ih (hinv.step op) s1 s2 s3 s4 (fun o ho => hops o (List.mem_cons_of_mem op ho)) hlt
    · exact absurd s1 (Nat.not_le.2 hlt1)

/-- A task blocked only by a deadline `w` is no longer Blocked once tick `w` is reached,
after every sequence of kernel calls that does not delete it and in which it makes
no call that blocks it again. -/
theorem Kernel.run_time_elapsed {k : Kernel} (hinv : k.Inv) {T : TaskHandle_t}
    {w : TickType_t}
    (h : ((∀ o, T ∉ k.waitList o) ∧ k.notifyWait T = false ∧ k.deadline T = some w ∧
        k.state T = eBlocked ∧ k.xTickCount < w) ∨ k.state T ≠ eBlocked)
    (ops : List Op) (hops : ∀ op ∈ ops, op.deletesTask T = false)
    (hnb : k.noBlockingCall T ops = true)
    (hge : w ≤ (k.run ops).xTickCount) :
    (k.run ops).state T ≠ eBlocked := by
  induction ops generalizing k with
  | nil =>
    rcases h with ⟨_, _, _, _, h5⟩ | h
    · exact absurd hge (Nat.not_le.2 h5)
    · exact h
  | cons op ops ih =>
    simp only [Kernel.noBlockingCall, Bool.and_eq_true, Bool.not_eq_true', Op.blocksIn,
      Bool.and_eq_false_iff, decide_eq_false_iff_not] at hnb
    apply ih (hinv.step op) _ (fun o ho => hops o (List.mem_cons_of_mem op ho)) hnb.2 hge
    rcases h with ⟨h1, h2, h3, h4, h5⟩ | h
    · rcases Kernel.step_time_blocked hinv h1 h2 h3 h4 h5 op
        (hops op (List.mem_cons_self op ops)) with hs | ⟨_, hs⟩
      · exact Or.inl hs
      · right
        rw [hs]
        decide
    · right
      rcases hnb.1 with hh | hh
      · exact Kernel.step_not_blocked h hh
      · exact hh

theorem prvEventObject_some_of_mem {k : Kernel} {T : TaskHandle_t}
    (h : ∃ o ∈ k.objs, T ∈ k.waitList o) :
    ∃ o, prvEventObject k T = some o := by
  cases hfind : prvEventObject k T with
  | some o => exact ⟨o, rfl⟩
  | none =>
    unfold prvEventObject at hfind
    rw [List.find?_eq_none] at hfind
    obtain ⟨o, ho, hm⟩ := h
    have := hfind o ho
    simp [hm] at this

theorem prvEventObject_none_of_not_mem {k : Kernel} {T : TaskHandle_t}
    (h : ∀ o ∈ k.objs, T ∉ k.waitList o) : prvEventObject k T = none := by
  unfold prvEventObject
  rw [List.find?_eq_none]
  intro o ho
  simp [h o ho]

/-- The classification of a task depends only on the objects and on its own
registrations. -/
theorem classify_congr {k k2 : Kernel} {U : TaskHandle_t} (h : k.sameBlocking k2 U)
    (ho : k2.objs = k.objs) : vTaskGetCurrentBlocker k2 U = vTaskGetCurrentBlocker k U := by
  obtain ⟨h1, h2, h3, _⟩ := h
  have hp : (fun o => decide (U ∈ k2.waitList o)) = (fun o => decide (U ∈ k.waitList o)) := by
    funext o
    exact decide_eq_decide.2 (h1 o)
  unfold vTaskGetCurrentBlocker prvEventObject
  rw [ho, hp, h2, h3]

theorem sameBlocking_vTaskDelete {k : Kernel} {T U : TaskHandle_t} (h : U ≠ T) :
    k.sameBlocking (vTaskDelete k T) U := by
  refine ⟨fun o => ?_, ?_, ?_, ?_⟩
  · show U ∈ (prvRetract k T).waitList o ↔ _
    rw [mem_prvRetract]
    exact ⟨fun hh => hh.1, fun hh => ⟨hh, h⟩⟩
  · simp [vTaskDelete, prvRetract, h]
  · simp [vTaskDelete, prvRetract, h]
  · simp [vTaskDelete, h]

theorem noBlockingCall_of_no_call {k : Kernel} {T : TaskHandle_t} {ops : List Op}
    (h : ∀ op ∈ ops, op.blocksTask T = false) : k.noBlockingCall T ops = true := by
  induction ops generalizing k with
  | nil => rfl
  | cons op ops ih =>
    simp only [Kernel.noBlockingCall, Op.blocksIn, h op (List.mem_cons_self op ops),
      Bool.false_and, Bool.not_false, Bool.true_and]
    exact ih (fun o ho => h o (List.mem_cons_of_mem op ho))

/-! ## Lemmas on executions of the test program -/

theorem Proc.sameVerdict_refl {α : Type} (p : Proc α) : p.sameVerdict p :=
  ⟨rfl, fun _ => Iff.rfl⟩

theorem Proc.prints_bind {α β : Type} (p : Proc α) (f : α → Proc β) (s : String) :
    (p >>= f).prints s ↔
      p.prints s ∨ ∃ a, p.outcome = .returned a ∧ (f a).prints s := by
  show (Proc.bind p f).prints s ↔ _
  unfold Proc.bind Proc.prints
  cases h : p.outcome with
  | returned a => simp
  | halted h => simp

theorem Proc.outcome_bind {α β : Type} (p : Proc α) (f : α → Proc β) :
    (p >>= f).outcome =
      match p.outcome with
      | .returned a => (f a).outcome
      | .halted h => .halted h := by
  show (Proc.bind p f).outcome = _
  unfold Proc.bind
  cases h : p.outcome <;> rfl

/-- Sequencing preserves agreement of verdicts. -/
theorem Proc.sameVerdict_bind {α β : Type} {p q : Proc α} {f g : α → Proc β}
    (h : p.sameVerdict q) (hfg : ∀ a, (f a).sameVerdict (g a)) :
    (p >>= f).sameVerdict (q >>= g) := by
  constructor
  · rw [Proc.outcome_bind, Proc.outcome_bind, h.1]
    cases q.outcome with
    | returned a => exact (hfg a).1
    | halted h => rfl
  · intro s
    rw [Proc.prints_bind, Proc.prints_bind, h.1, h.2 s]
    constructor
    · rintro (h1 | ⟨a, ha, h2⟩)
      · exact Or.inl h1
      · exact Or.inr ⟨a, ha, ((hfg a).2 s).1 h2⟩
    · rintro (h1 | ⟨a, ha, h2⟩)
      · exact Or.inl h1
      · exact Or.inr ⟨a, ha, ((hfg a).2 s).2 h2⟩

theorem sameVerdict_printf_args (format : String) (a b : Arg) :
    (printf format [a]).sameVerdict (printf format [b]) := by
  constructor
  · rfl
  · intro s
    simp [Proc.prints, printf, Proc.emit]

theorem Proc.bind_returned {α β : Type} (tr : List Event) (a : α) (f : α → Proc β) :
    ((⟨tr, .returned a⟩ : Proc α) >>= f) = ⟨tr ++ (f a).trace, (f a).outcome⟩ := rfl

theorem Proc.bind_halted {α β : Type} (tr : List Event) (h : Halt) (f : α → Proc β) :
    ((⟨tr, .halted h⟩ : Proc α) >>= f) = ⟨tr, .halted h⟩ := rfl

theorem pure_eq_mk {α : Type} (a : α) : (Pure.pure a : Proc α) = ⟨[], .returned a⟩ := rfl

theorem prvTakeLoop_eq (sem : SemaphoreHandle_t) (rs : List BaseType_t) :
    prvTakeLoop sem rs =
      ⟨List.replicate (loopCalls pdTRUE rs) (.xSemaphoreTake sem portMAX_DELAY),
        if pdTRUE ∈ rs then .returned () else .halted .stalled⟩ := by
  induction rs with
  | nil => rfl
  | cons r rs ih =>
    unfold prvTakeLoop
    by_cases h : pdTRUE = r
    · simp [h, loopCalls, Proc.emit, Proc.bind_returned, pure_eq_mk, List.replicate]
    · have h2 : ¬ r = pdTRUE := fun e => h e.symm
      simp [h, h2, ih, loopCalls, Proc.emit, Proc.bind_returned, List.replicate_succ]

theorem prvNotifyWaitLoop_eq (rs : List BaseType_t) :
    prvNotifyWaitLoop rs =
      ⟨List.replicate (loopCalls pdPASS rs) (.xTaskNotifyWait 0 0 portMAX_DELAY),
        if pdPASS ∈ rs then .returned () else .halted .stalled⟩ := by
  induction rs with
  | nil => rfl
  | cons r rs ih =>
    unfold prvNotifyWaitLoop
    by_cases h : pdPASS = r
    · simp [h, loopCalls, Proc.emit, Proc.bind_returned, pure_eq_mk, List.replicate]
    · have h2 : ¬ r = pdPASS := fun e => h e.symm
      simp [h, h2, ih, loopCalls, Proc.emit, Proc.bind_returned, List.replicate_succ]

theorem cond_fold (env : TestEnv) :
    (decide (pdPASS = (env.create 152).1) = env.cond 152) ∧
      ((decide (env.state 162 = eBlocked) &&
        decide ((env.blocker 161).eStatus = eBlockedForEvent)) = env.cond 163) ∧
      (decide (listGET_LIST_OWNER (env.blocker 161).pxEventList = some env.xSharedSem) =
        env.cond 164) ∧
      ((decide (env.state 170 ≠ eBlocked) &&
        decide ((env.blocker 169).eStatus = eNotBlocked)) = env.cond 171) ∧
      (decide (pdPASS = (env.create 176).1) = env.cond 176) ∧
      ((decide (env.state 186 = eBlocked) &&
        decide ((env.blocker 185).eStatus = eBlockedForNotification)) = env.cond 187) ∧
      ((decide (env.state 193 ≠ eBlocked) &&
        decide ((env.blocker 192).eStatus = eNotBlocked)) = env.cond 194) ∧
      (decide (pdPASS = (env.create 199).1) = env.cond 199) ∧
      ((decide (env.state 209 = eBlocked) &&
        decide ((env.blocker 208).eStatus = eBlockedForTime)) = env.cond 210) ∧
      (decide ((env.blocker 216).eStatus = eNotBlocked) = env.cond 217) :=
  ⟨rfl, rfl, rfl, rfl, rfl, rfl, rfl, rfl, rfl, rfl⟩

theorem cond_create (env : TestEnv) :
    ((env.create 152).1 = pdPASS ↔ env.cond 152 = true) ∧
      ((env.create 176).1 = pdPASS ↔ env.cond 176 = true) ∧
      ((env.create 199).1 = pdPASS ↔ env.cond 199 = true) := by
  simp [TestEnv.cond, eq_comm]

theorem prvTest_fails_at (env : TestEnv) (hen : env.assertEnabled = true)
    (htake : pdTRUE ∈ env.take) (l : Nat) (hl : l ∈ assertLines)
    (hprev : ∀ l2 ∈ assertLines, l2 < l → env.cond l2 = true) (hc : env.cond l = false) :
    (prvTest env).outcome = .halted (.exited 1) ∧
      (vAssertCalled l env.pcFile env.lastError).trace <:+ (prvTest env).trace ∧
      (prvTest env).prints "Fail.\n" ∧ ¬ (prvTest env).prints "Pass.\n" := by
  simp only [assertLines, List.mem_cons, List.mem_singleton, List.not_mem_nil, or_false] at hl
  unfold prvTest
  simp only [cond_fold env]
  rcases hl with rfl | rfl | rfl | rfl | rfl | rfl | rfl | rfl | rfl | rfl
  all_goals
    simp [assertLines] at hprev
    simp [configASSERT, prvTakeLoop_eq, Proc.emit, printf, exit,
      Proc.halt, Proc.bind_returned, Proc.bind_halted, pure_eq_mk, vAssertCalled, Proc.prints,
      prvDeleteWorker, cond_create env, *]
    repeat (first
      | exact List.suffix_refl _
      | refine List.IsSuffix.trans ?_ (List.suffix_append (List.replicate _ _) _)
      | refine List.suffix_cons_iff.2 (Or.inr ?_))

/-- A failed creation: the events that end the run are the creation call itself and
the three events of `vAssertCalled`. -/
theorem prvTest_create_fails_at (env : TestEnv) (hen : env.assertEnabled = true)
    (htake : pdTRUE ∈ env.take) (l : Nat) (hl : l ∈ [152, 176, 199])
    (hprev : ∀ l2 ∈ assertLines, l2 < l → env.cond l2 = true) (hc : env.cond l = false) :
    (Event.xTaskCreate (workerOf l).1 (workerOf l).2 configMINIMAL_STACK_SIZE
        (tskIDLE_PRIORITY + 1) NULL :: (vAssertCalled l env.pcFile env.lastError).trace)
      <:+ (prvTest env).trace := by
  simp only [List.mem_cons, List.mem_singleton, List.not_mem_nil, or_false] at hl
  unfold prvTest
  simp only [cond_fold env]
  rcases hl with rfl | rfl | rfl
  all_goals
    simp [assertLines] at hprev
    simp [configASSERT, prvTakeLoop_eq, Proc.emit, printf, exit, workerOf,
      Proc.halt, Proc.bind_returned, Proc.bind_halted, pure_eq_mk, vAssertCalled, Proc.prints,
      prvDeleteWorker, cond_create env, *]
    repeat (first
      | exact List.suffix_refl _
      | refine List.IsSuffix.trans ?_ (List.suffix_append (List.replicate _ _) _)
      | refine List.suffix_cons_iff.2 (Or.inr ?_))

theorem prvTest_passes (env : TestEnv) (hen : env.assertEnabled = true)
    (htake : pdTRUE ∈ env.take) (hall : ∀ l ∈ assertLines, env.cond l = true) :
    (prvTest env).outcome = .halted .deleted ∧ (prvTest env).prints "Pass.\n" ∧
      ¬ (prvTest env).prints "Fail.\n" ∧ Event.exit 1 ∉ (prvTest env).trace := by
  unfold prvTest
  simp only [cond_fold env]
  simp [assertLines] at hall
  simp [configASSERT, prvTakeLoop_eq, Proc.emit, printf, exit,
    Proc.halt, Proc.bind_returned, Proc.bind_halted, pure_eq_mk, vAssertCalled, Proc.prints,
      prvDeleteWorker, cond_create env, *]

theorem prvTest_stalls (env : TestEnv) (htake : pdTRUE ∉ env.take) :
    (prvTest env).outcome = .halted .stalled ∧ ¬ (prvTest env).prints "Pass.\n" ∧
      ¬ (prvTest env).prints "Fail.\n" ∧ (∀ status, Event.exit status ∉ (prvTest env).trace) ∧
      (prvTest env).trace =
        [.printf "Testing without suspension...\n" [],
          .printf ("Note: Task state management differs when INCLUDE_vTaskSuspend == 1 and when it does not. \n"
            ++ "      Therefore, recompile and test with INCLUDE_vTaskSuspend == 1 and != 1.\n") []] ++
        List.replicate (loopCalls pdTRUE env.take) (.xSemaphoreTake env.xSharedSem portMAX_DELAY) := by
  unfold prvTest
  simp [configASSERT, prvTakeLoop_eq, Proc.emit, printf, exit,
    Proc.halt, Proc.bind_returned, Proc.bind_halted, pure_eq_mk, vAssertCalled, Proc.prints,
      prvDeleteWorker, cond_create env, *]

theorem exists_first_failure (env : TestEnv) (h : ∃ l ∈ assertLines, env.cond l = false) :
    ∃ l ∈ assertLines,
      (∀ l2 ∈ assertLines, l2 < l → env.cond l2 = true) ∧ env.cond l = false := by
  have hex : ∃ l, l ∈ assertLines ∧ env.cond l = false := by
    obtain ⟨l, hl, hc⟩ := h
    exact ⟨l, hl, hc⟩
  refine ⟨Nat.find hex, (Nat.find_spec hex).1, ?_, (Nat.find_spec hex).2⟩
  intro l2 hl2 hlt
  have hmin := Nat.find_min hex hlt
  cases hc : env.cond l2 with
  | true => rfl
  | false => exact absurd ⟨hl2, hc⟩ hmin

theorem prvTest_no_assert (env : TestEnv) (hen : env.assertEnabled = false) :
    ¬ (prvTest env).prints "Fail.\n" ∧ ∀ status, Event.exit status ∉ (prvTest env).trace := by
  unfold prvTest
  by_cases htake : pdTRUE ∈ env.take <;> by_cases hnull : env.xHandleInitial = NULL <;>
    by_cases hself : env.xHandleInitial = env.self
  all_goals
    try rw [hself] at hnull
    simp [configASSERT, prvTakeLoop_eq, Proc.emit, printf, exit,
      Proc.halt, Proc.bind_returned, Proc.bind_halted, pure_eq_mk, vAssertCalled, Proc.prints,
      prvDeleteWorker, cond_create env, *]

theorem main_create_fails (env : TestEnv) (schedulerReturns : Bool)
    (hen : env.assertEnabled = true) (hc : (env.create 234).1 ≠ pdPASS) :
    main env schedulerReturns =
      ⟨[.vPortDefineHeapRegions
            (xHeapRegions mainREGION_1_SIZE mainREGION_2_SIZE mainREGION_3_SIZE),
          .printf "\nStarting...\n" [], .vSemaphoreCreateBinary,
          .xTaskCreate .prvTest "test" configMINIMAL_STACK_SIZE NULL (tskIDLE_PRIORITY + 1)] ++
          (vAssertCalled 234 env.pcFile env.lastError).trace,
        .halted (.exited 1)⟩ := by
  have hs : prvHeapSanity mainREGION_1_SIZE mainREGION_2_SIZE mainREGION_3_SIZE = true := by
    decide
  have hc2 : ¬ pdPASS = (env.create 234).1 := fun e => hc e.symm
  simp [main, prvInitialiseHeap, configASSERT, Proc.emit, printf, exit, Proc.halt,
    Proc.bind_returned, Proc.bind_halted, pure_eq_mk, vAssertCalled, hen, hs, hc2]

theorem vWaitForSemaphore_eq (sem : SemaphoreHandle_t) (rs : List BaseType_t) :
    vWaitForSemaphore sem rs =
      if pdTRUE ∈ rs then
        ⟨.printf "[Task][Sem-wait] Waiting for xSharedSem\n" [] ::
            (List.replicate (loopCalls pdTRUE rs) (.xSemaphoreTake sem portMAX_DELAY) ++
              [.printf "[Task][Sem-wait] xSharedSem received\n" [], .xSemaphoreGive sem]),
          .halted .looping⟩
      else
        ⟨.printf "[Task][Sem-wait] Waiting for xSharedSem\n" [] ::
            List.replicate (loopCalls pdTRUE rs) (.xSemaphoreTake sem portMAX_DELAY),
          .halted .stalled⟩ := by
  unfold vWaitForSemaphore
  by_cases h : pdTRUE ∈ rs
  all_goals
    simp [prvTakeLoop_eq, Proc.emit, printf, Proc.halt, Proc.bind_returned, Proc.bind_halted, h]

theorem vWaitForNotification_eq (rs : List BaseType_t) :
    vWaitForNotification rs =
      if pdPASS ∈ rs then
        ⟨.printf "[Task][notify-wait] Waiting for notification\n" [] ::
            (List.replicate (loopCalls pdPASS rs) (.xTaskNotifyWait 0 0 portMAX_DELAY) ++
              [.printf "[Task][notify-wait] notification received\n" []]),
          .halted .looping⟩
      else
        ⟨.printf "[Task][notify-wait] Waiting for notification\n" [] ::
            List.replicate (loopCalls pdPASS rs) (.xTaskNotifyWait 0 0 portMAX_DELAY),
          .halted .stalled⟩ := by
  unfold vWaitForNotification
  by_cases h : pdPASS ∈ rs
  all_goals
    simp [prvNotifyWaitLoop_eq, Proc.emit, printf, Proc.halt, Proc.bind_returned,
      Proc.bind_halted, h]

theorem allEvents_bind {α β : Type} {P : Event → Prop} {p : Proc α} {f : α → Proc β}
    (hp : p.allEvents P) (hf : ∀ a, (f a).allEvents P) : (p >>= f).allEvents P := by
  intro e he
  change e ∈ (Proc.bind p f).trace at he
  unfold Proc.bind at he
  cases h : p.outcome with
  | returned a =>
    rw [h] at he
    simp only [List.mem_append] at he
    rcases he with he | he
    · exact hp e he
    · exact hf a e he
  | halted x =>
    rw [h] at he
    exact hp e he

theorem allEvents_emit {P : Event → Prop} {e : Event} (h : P e) : (Proc.emit e).allEvents P := by
  intro x hx
  simp only [Proc.emit, List.mem_singleton] at hx
  rw [hx]
  exact h

theorem allEvents_pure {α : Type} {P : Event → Prop} (a : α) :
    (Pure.pure a : Proc α).allEvents P := by
  intro x hx
  cases hx

theorem allEvents_halt {α : Type} {P : Event → Prop} (h : Halt) :
    (Proc.halt h : Proc α).allEvents P := by
  intro x hx
  cases hx

theorem allEvents_ite {α : Type} {P : Event → Prop} {c : Prop} [Decidable c] {p q : Proc α}
    (hp : p.allEvents P) (hq : q.allEvents P) : (if c then p else q).allEvents P := by
  split
  · exact hp
  · exact hq

theorem allEvents_takeLoop {P : Event → Prop} (sem : SemaphoreHandle_t)
    (rs : List BaseType_t) (h : P (.xSemaphoreTake sem portMAX_DELAY)) :
    (prvTakeLoop sem rs).allEvents P := by
  intro e he
  rw [prvTakeLoop_eq] at he
  rw [List.eq_of_mem_replicate he]
  exact h

theorem allEvents_vAssertCalled {P : Event → Prop} (l : Nat) (f : String) (err : Nat)
    (h1 : P (.printf "ASSERT! Line %ld, file %s, GetLastError() %ld\r\n"
      [.num l, .str f, .num err]))
    (h2 : P (.printf "Fail.\n" [])) (h3 : P (.exit 1)) :
    (vAssertCalled l f err).allEvents P := by
  intro e he
  have ht : (vAssertCalled l f err).trace =
      [.printf "ASSERT! Line %ld, file %s, GetLastError() %ld\r\n" [.num l, .str f, .num err],
        .printf "Fail.\n" [], .exit 1] := rfl
  rw [ht] at he
  simp only [List.mem_cons, List.mem_singleton, List.not_mem_nil, or_false] at he
  rcases he with rfl | rfl | rfl
  · exact h1
  · exact h2
  · exact h3

/-- Every `xTaskNotify` that `prvTest` performs passes the value 0xDC with the action
`eNoAction`. -/
theorem prvTest_notify_events (env : TestEnv) :
    (prvTest env).allEvents
      (fun e => ∀ h v a, e = Event.xTaskNotify h v a → v = 0xDC ∧ a = eNoAction) := by
  unfold prvTest
  simp only [configASSERT, printf]
  repeat' (first
    | exact allEvents_pure _
    | exact allEvents_halt _
    | exact allEvents_emit (by simp)
    | exact allEvents_takeLoop _ _ (by simp)
    | exact allEvents_vAssertCalled _ _ _ (by simp) (by simp) (by simp)
    | refine allEvents_ite ?_ ?_
    | refine allEvents_bind ?_ (fun _ => ?_))

theorem prvTest_trace_pass (env : TestEnv) (hen : env.assertEnabled = true)
    (htake : pdTRUE ∈ env.take) (hall : ∀ l ∈ assertLines, env.cond l = true) :
    (prvTest env).trace =
      prvTestHeader ++
        List.replicate (loopCalls pdTRUE env.take) (.xSemaphoreTake env.xSharedSem portMAX_DELAY) ++
        prvTestBody env (env.create 152).2 (env.create 176).2 (env.create 199).2 := by
  unfold prvTest
  simp only [cond_fold env]
  simp [assertLines] at hall
  simp [configASSERT, prvTakeLoop_eq, Proc.emit, printf, exit, prvTestHeader, prvTestBody,
    Proc.halt, Proc.bind_returned, Proc.bind_halted, pure_eq_mk, vAssertCalled, Proc.prints,
      prvDeleteWorker, cond_create env, *]

theorem prvTest_trace_no_assert (env : TestEnv) (hen : env.assertEnabled = false)
    (htake : pdTRUE ∈ env.take) (hnull : env.xHandleInitial ≠ NULL)
    (hself : env.xHandleInitial ≠ env.self) :
    (prvTest env).trace =
      prvTestHeader ++
        List.replicate (loopCalls pdTRUE env.take) (.xSemaphoreTake env.xSharedSem portMAX_DELAY) ++
        (prvTestBody env env.xHandleInitial env.xHandleInitial env.xHandleInitial).filter
          (fun e => !e.isCreate) := by
  unfold prvTest
  simp [configASSERT, prvTakeLoop_eq, Proc.emit, printf, exit, prvTestHeader, prvTestBody,
    Event.isCreate,
    Proc.halt, Proc.bind_returned, Proc.bind_halted, pure_eq_mk, vAssertCalled, Proc.prints,
      prvDeleteWorker, cond_create env, *]

/-- Without assertions, when the uninitialised `xHandle` reads as the null handle or as
the tester's own handle, the `vTaskDelete(xHandle)` of line 172 deletes the tester:
that call is the last action of the run. -/
theorem prvTest_trace_self_deleted (env : TestEnv) (hen : env.assertEnabled = false)
    (htake : pdTRUE ∈ env.take)
    (h : env.xHandleInitial = NULL ∨ env.xHandleInitial = env.self) :
    (prvTest env).trace =
        prvTestHeader ++
          List.replicate (loopCalls pdTRUE env.take)
            (.xSemaphoreTake env.xSharedSem portMAX_DELAY) ++
          [ .vTaskDelay 100, .vTaskGetCurrentBlocker env.xHandleInitial,
            .eTaskGetState env.xHandleInitial, .xSemaphoreGive env.xSharedSem,
            .vTaskDelay 100, .vTaskGetCurrentBlocker env.xHandleInitial,
            .eTaskGetState env.xHandleInitial,
            .vTaskDelete (if env.xHandleInitial = NULL then none else some env.xHandleInitial) ] ∧
      (prvTest env).outcome = .halted .deleted := by
  unfold prvTest
  by_cases hnull : env.xHandleInitial = NULL
  · simp [configASSERT, prvTakeLoop_eq, Proc.emit, printf, exit, prvTestHeader,
      Proc.halt, Proc.bind_returned, Proc.bind_halted, pure_eq_mk, vAssertCalled,
      Proc.prints, prvDeleteWorker, hen, htake, hnull]
  · have hself : env.xHandleInitial = env.self := h.resolve_left hnull
    rw [hself] at hnull
    simp [configASSERT, prvTakeLoop_eq, Proc.emit, printf, exit, prvTestHeader,
      Proc.halt, Proc.bind_returned, Proc.bind_halted, pure_eq_mk, vAssertCalled,
      Proc.prints, prvDeleteWorker, hen, htake, hnull, hself]

theorem vAssertCalled_trace (l : Nat) (f : String) (err : Nat) :
    (vAssertCalled l f err).trace =
      [.printf "ASSERT! Line %ld, file %s, GetLastError() %ld\r\n" [.num l, .str f, .num err],
        .printf "Fail.\n" [], .exit 1] := rfl

theorem prvHeapSanity_main :
    prvHeapSanity mainREGION_1_SIZE mainREGION_2_SIZE mainREGION_3_SIZE = true := by
  decide

/-- Without wraparound the sum of line 358 is the sum of its four terms. -/
theorem prvHeapSum_eq (s1 s2 s3 : Nat) (h : ulAdditionalOffset + s1 + s2 + s3 < 2 ^ 32) :
    prvHeapSum s1 s2 s3 = ulAdditionalOffset + s1 + s2 + s3 := by
  simp only [ulAdditionalOffset] at h ⊢
  have h1 : s1 < 2 ^ 32 := by omega
  have h2 : s2 < 2 ^ 32 := by omega
  have h3 : s3 < 2 ^ 32 := by omega
  have e1 : (19 + s1) % 2 ^ 32 = 19 + s1 := Nat.mod_eq_of_lt (by omega)
  have e2 : (19 + s1 + s2) % 2 ^ 32 = 19 + s1 + s2 := Nat.mod_eq_of_lt (by omega)
  have e3 : (19 + s1 + s2 + s3) % 2 ^ 32 = 19 + s1 + s2 + s3 := Nat.mod_eq_of_lt h
  simp only [prvHeapSum, ulAdditionalOffset, literalWidth, h1, h2, h3, if_true, Nat.max_self,
    e1, e2, e3]

/-- The actions of `main`, by the build and the result of the creation of the tester. -/
theorem main_trace (env : TestEnv) (schedulerReturns : Bool) :
    (main env schedulerReturns).trace =
      [.vPortDefineHeapRegions (xHeapRegions mainREGION_1_SIZE mainREGION_2_SIZE mainREGION_3_SIZE),
        .printf "\nStarting...\n" [], .vSemaphoreCreateBinary] ++
      (if env.assertEnabled then
        [.xTaskCreate .prvTest "test" configMINIMAL_STACK_SIZE NULL (tskIDLE_PRIORITY + 1)]
      else []) ++
      (if env.assertEnabled = true ∧ (env.create 234).1 ≠ pdPASS then
        (vAssertCalled 234 env.pcFile env.lastError).trace
      else .vTaskStartScheduler :: (if schedulerReturns then [.printf "\nDone!\n" []] else [])) := by
  have hs := prvHeapSanity_main
  cases hen : env.assertEnabled <;> cases schedulerReturns <;>
    by_cases hc : pdPASS = (env.create 234).1 <;>
    simp [main, prvInitialiseHeap, configASSERT, Proc.emit, printf, exit, Proc.halt,
      Proc.bind_returned, Proc.bind_halted, pure_eq_mk, vAssertCalled, hen, hs, hc, eq_comm]

theorem atMostOneWorker_head (env : TestEnv) (alive : List TaskHandle_t) (tr : List Event)
    (h : atMostOneWorker env alive tr) : alive.length ≤ 1 := by
  cases tr with
  | nil => exact h
  | cons e tr => exact h.1

theorem atMostOneWorker_takes (env : TestEnv) (alive : List TaskHandle_t) (n : Nat)
    (sem : SemaphoreHandle_t) (t : TickType_t) (tr : List Event) :
    atMostOneWorker env alive (List.replicate n (.xSemaphoreTake sem t) ++ tr) ↔
      atMostOneWorker env alive tr := by
  induction n with
  | zero => simp
  | succ n ih =>
    rw [List.replicate_succ, List.cons_append]
    constructor
    · intro h
      exact ih.1 h.2
    · intro h
      exact ⟨atMostOneWorker_head env alive tr h, ih.2 h⟩

/-- A run of `prvTest` that prints "Pass." has left the take loop; every assertion
that is compiled in held; and without assertions the uninitialised `xHandle` read
neither as the null handle nor as the tester's own. -/
theorem prvTest_pass_inv (env : TestEnv) (hpass : (prvTest env).prints "Pass.\n") :
    pdTRUE ∈ env.take ∧
      (env.assertEnabled = true → ∀ l ∈ assertLines, env.cond l = true) ∧
      (env.assertEnabled = false →
        env.xHandleInitial ≠ NULL ∧ env.xHandleInitial ≠ env.self) := by
  have htake : pdTRUE ∈ env.take := by
    by_contra h
    exact (prvTest_stalls env h).2.1 hpass
  refine ⟨htake, fun hen l hl => ?_, fun hen => ?_⟩
  · by_contra hc
    have hex : ∃ l ∈ assertLines, env.cond l = false := by
      refine ⟨l, hl, ?_⟩
      cases h : env.cond l with
      | true => exact absurd h hc
      | false => rfl
    obtain ⟨l1, hl1, hprev1, hc1⟩ := exists_first_failure env hex
    exact (prvTest_fails_at env hen htake l1 hl1 hprev1 hc1).2.2.2 hpass
  · by_contra hne
    have h : env.xHandleInitial = NULL ∨ env.xHandleInitial = env.self := by
      by_contra hno
      exact hne ⟨fun e => hno (Or.inl e), fun e => hno (Or.inr e)⟩
    unfold Proc.prints at hpass
    rw [(prvTest_trace_self_deleted env hen htake h).1] at hpass
    by_cases hnull : env.xHandleInitial = NULL <;> simp [prvTestHeader, hnull] at hpass

/-- Two creations without a deletion between them leave two created tasks in existence. -/
theorem atMostOneWorker_two_creations :
    ¬ atMostOneWorker envPass []
      [.xTaskCreate .vWaitForSemaphore "SemWait" 60 1 0,
        .xTaskCreate .vWaitForNotification "NoteWait" 60 1 0] := by
  simp [atMostOneWorker, workersAfter, createLine, envPass, pdPASS]

/-! ## The claims -/

/-- C1 (event-block correctness).  After any history of kernel calls, if the running
task `T` calls take on an existing, unavailable semaphore `S` with the infinite
timeout, then the classifier reports `eBlockedForEvent` for `T` with the wait list of
`S` as event list, `eTaskGetState` reports `eBlocked`, `T` is a member of the wait list of
`S`, and the owner of the reported event list is `S`. -/
theorem C1_event_block_correct (ops : List Op) (T : TaskHandle_t) (S : SemaphoreHandle_t)
    (hrun : (Kernel.init.run ops).state T = eRunning)
    (hS : S ∈ (Kernel.init.run ops).objs)
    (hun : (Kernel.init.run ops).available S = false) :
    vTaskGetCurrentBlocker (xSemaphoreTake (Kernel.init.run ops) T S portMAX_DELAY) T =
        { eStatus := eBlockedForEvent, pxEventList := some ⟨S⟩, xUntilTick := none } ∧
      eTaskGetState (xSemaphoreTake (Kernel.init.run ops) T S portMAX_DELAY) T = eBlocked ∧
      T ∈ (xSemaphoreTake (Kernel.init.run ops) T S portMAX_DELAY).waitList S ∧
      listGET_LIST_OWNER (vTaskGetCurrentBlocker
        (xSemaphoreTake (Kernel.init.run ops) T S portMAX_DELAY) T).pxEventList = some S := by
  have hinv : (Kernel.init.run ops).Inv := Kernel.Inv.init.run ops
  generalize Kernel.init.run ops = k at *
  have hno : ∀ o, T ∉ k.waitList o := fun o hm => by
    have := hinv.blocked T (Or.inl ⟨o, hm⟩)
    rw [hrun] at this
    cases this
  have hk : xSemaphoreTake k T S portMAX_DELAY =
      { k with
        state := fun x => if x = T then eBlocked else k.state x
        waitList := fun o => if o = S then k.waitList S ++ [T] else k.waitList o
        deadline := fun x =>
          if x = T then prvDeadline k.xTickCount portMAX_DELAY else k.deadline x } := by
    simp [xSemaphoreTake, hrun, hS, hun, portMAX_DELAY]
  have hmem : T ∈ (xSemaphoreTake k T S portMAX_DELAY).waitList S := by
    rw [hk]
    simp
  have hev : prvEventObject (xSemaphoreTake k T S portMAX_DELAY) T = some S := by
    cases hfind : prvEventObject (xSemaphoreTake k T S portMAX_DELAY) T with
    | none =>
      unfold prvEventObject at hfind
      rw [List.find?_eq_none] at hfind
      have hS2 : S ∈ (xSemaphoreTake k T S portMAX_DELAY).objs := by rw [hk]; exact hS
      have := hfind S hS2
      simp [hmem] at this
    | some o =>
      have hm := (prvEventObject_mem hfind).2
      rw [hk] at hm
      simp only at hm
      split at hm
      · rename_i ho
        rw [ho]
      · exact absurd hm (hno o)
  have hcl : vTaskGetCurrentBlocker (xSemaphoreTake k T S portMAX_DELAY) T =
      { eStatus := eBlockedForEvent, pxEventList := some ⟨S⟩, xUntilTick := none } := by
    simp [vTaskGetCurrentBlocker, hev]
  refine ⟨hcl, ?_, hmem, ?_⟩
  · rw [hk]
    simp [eTaskGetState]
  · rw [hcl]
    rfl

theorem C1_event_block_correct_witness :
    (Kernel.init.run scenarioA).state 2 = eRunning ∧
      7 ∈ (Kernel.init.run scenarioA).objs ∧
      (Kernel.init.run scenarioA).available 7 = false ∧
      vTaskGetCurrentBlocker (xSemaphoreTake (Kernel.init.run scenarioA) 2 7 portMAX_DELAY) 2 =
        { eStatus := eBlockedForEvent, pxEventList := some ⟨7⟩, xUntilTick := none } :=
  ⟨by decide, by decide, by decide,
    (C1_event_block_correct scenarioA 2 7 (by decide) (by decide) (by decide)).1⟩

/-- C2 (event-wake correctness).  After any history of kernel calls, if `T` is the sole
waiter on semaphore `S` and `S` is released, then the classifier reports not blocked
for `T` and `T` is Ready; and after every further sequence of kernel calls in which
`T` makes no call that blocks it again, `T` is still classified as not blocked and
its state is not Blocked. -/
theorem C2_event_wake_correct (ops : List Op) (T : TaskHandle_t) (S : SemaphoreHandle_t)
    (hsole : (Kernel.init.run ops).waitList S = [T])
    (later : List Op)
    (hlater : (xSemaphoreGive (Kernel.init.run ops) S).noBlockingCall T later = true) :
    vTaskGetCurrentBlocker (xSemaphoreGive (Kernel.init.run ops) S) T =
        { eStatus := eNotBlocked, pxEventList := none, xUntilTick := none } ∧
      eTaskGetState (xSemaphoreGive (Kernel.init.run ops) S) T = eReady ∧
      vTaskGetCurrentBlocker ((xSemaphoreGive (Kernel.init.run ops) S).run later) T =
        { eStatus := eNotBlocked, pxEventList := none, xUntilTick := none } ∧
      eTaskGetState ((xSemaphoreGive (Kernel.init.run ops) S).run later) T ≠ eBlocked := by
  have hinv : (Kernel.init.run ops).Inv := Kernel.Inv.init.run ops
  generalize Kernel.init.run ops = k at *
  have hS : S ∈ k.objs := by
    by_contra hn
    have := hinv.known S hn
    rw [hsole] at this
    cases this
  have hst : (xSemaphoreGive k S).state T = eReady := by
    simp [xSemaphoreGive, hS, hsole, prvWake]
  have hinv1 : (xSemaphoreGive k S).Inv := hinv.give S
  have hnb : (xSemaphoreGive k S).state T ≠ eBlocked := by
    rw [hst]
    decide
  have hnb2 := Kernel.run_awake hnb hlater
  exact ⟨classify_of_not_blocked hinv1 hnb, hst,
    classify_of_not_blocked (hinv1.run later) hnb2, hnb2⟩

set_option maxRecDepth 100000 in
theorem C2_event_wake_correct_witness :
    (Kernel.init.run scenarioA2).waitList 7 = [2] ∧
      (xSemaphoreGive (Kernel.init.run scenarioA2) 7).noBlockingCall 2
        [.delay 1 100, .switch 2, .take 2 7 portMAX_DELAY, .give 7, .tick] = true ∧
      vTaskGetCurrentBlocker ((xSemaphoreGive (Kernel.init.run scenarioA2) 7).run
          [.delay 1 100, .switch 2, .take 2 7 portMAX_DELAY, .give 7, .tick]) 2 =
        { eStatus := eNotBlocked, pxEventList := none, xUntilTick := none } :=
  ⟨by decide, by decide,
    (C2_event_wake_correct scenarioA2 2 7 (by decide)
      [.delay 1 100, .switch 2, .take 2 7 portMAX_DELAY, .give 7, .tick] (by decide)).2.2.1⟩

/-- C3 (notification-block correctness).  After any history of kernel calls, if the
running task `T` calls `xTaskNotifyWait` with the infinite timeout while no
notification is pending for it, then after every further sequence of kernel calls
that contains no notify targeting `T` (and does not delete `T`), the classifier
reports `eBlockedForNotification` for `T` and `eTaskGetState` reports `eBlocked`. -/
theorem C3_notification_block_correct (ops : List Op) (T : TaskHandle_t) (entry exit : Nat)
    (hrun : (Kernel.init.run ops).state T = eRunning)
    (hpend : (Kernel.init.run ops).pending T = false)
    (later : List Op)
    (hlater : ∀ op ∈ later, op.notifiesTask T = false ∧ op.deletesTask T = false) :
    vTaskGetCurrentBlocker
        ((xTaskNotifyWait (Kernel.init.run ops) T entry exit portMAX_DELAY).run later) T =
        { eStatus := eBlockedForNotification, pxEventList := none, xUntilTick := none } ∧
      eTaskGetState
        ((xTaskNotifyWait (Kernel.init.run ops) T entry exit portMAX_DELAY).run later) T =
        eBlocked := by
  have hinv : (Kernel.init.run ops).Inv := Kernel.Inv.init.run ops
  generalize Kernel.init.run ops = k at *
  have hno : ∀ o, T ∉ k.waitList o := fun o hm => by
    have := hinv.blocked T (Or.inl ⟨o, hm⟩)
    rw [hrun] at this
    cases this
  have hinv1 : (xTaskNotifyWait k T entry exit portMAX_DELAY).Inv := hinv.notifyWait _ _ _ _
  have h1 : ∀ o, T ∉ (xTaskNotifyWait k T entry exit portMAX_DELAY).waitList o := by
    intro o
    simpa [xTaskNotifyWait, hrun, hpend, portMAX_DELAY] using hno o
  have h2 : (xTaskNotifyWait k T entry exit portMAX_DELAY).notifyWait T = true := by
    simp [xTaskNotifyWait, hrun, hpend, portMAX_DELAY]
  have h3 : (xTaskNotifyWait k T entry exit portMAX_DELAY).deadline T = none := by
    simp [xTaskNotifyWait, hrun, hpend, portMAX_DELAY, prvDeadline]
  have h4 : (xTaskNotifyWait k T entry exit portMAX_DELAY).state T = eBlocked := by
    simp [xTaskNotifyWait, hrun, hpend, portMAX_DELAY]
  obtain ⟨r1, r2, r3, r4⟩ := Kernel.run_notify_blocked hinv1 h1 h2 h3 h4 later hlater
  refine ⟨?_, r4⟩
  rw [classify_off_lists r1, r2]
  rfl

set_option maxRecDepth 100000 in
theorem C3_notification_block_correct_witness :
    (Kernel.init.run scenarioB).state 3 = eRunning ∧
      (Kernel.init.run scenarioB).pending 3 = false ∧
      vTaskGetCurrentBlocker
        ((xTaskNotifyWait (Kernel.init.run scenarioB) 3 0 0 portMAX_DELAY).run
          (List.replicate 100 .tick ++ [.switch 1, .getBlocker 3, .getState 3])) 3 =
        { eStatus := eBlockedForNotification, pxEventList := none, xUntilTick := none } :=
  ⟨by decide, by decide,
    (C3_notification_block_correct scenarioB 3 0 0 (by decide) (by decide)
      (List.replicate 100 .tick ++ [.switch 1, .getBlocker 3, .getState 3]) (by decide)).1⟩

/-- C4 (notify-wake correctness).  After any history of kernel calls, if task `T` is
blocked in `xTaskNotifyWait`, then for every value and every notify action, after
`xTaskNotify(T, value, action)` the task is Ready, hence not Blocked, and the classifier
reports not blocked for it. -/
theorem C4_notify_wake_correct (ops : List Op) (T : TaskHandle_t) (ulValue : Nat)
    (eAction : eNotifyAction)
    (hwait : (Kernel.init.run ops).notifyWait T = true) :
    eTaskGetState (xTaskNotify (Kernel.init.run ops) T ulValue eAction) T = eReady ∧
      eTaskGetState (xTaskNotify (Kernel.init.run ops) T ulValue eAction) T ≠ eBlocked ∧
      vTaskGetCurrentBlocker (xTaskNotify (Kernel.init.run ops) T ulValue eAction) T =
        { eStatus := eNotBlocked, pxEventList := none, xUntilTick := none } := by
  have hinv : (Kernel.init.run ops).Inv := Kernel.Inv.init.run ops
  generalize Kernel.init.run ops = k at *
  have hb : k.state T = eBlocked := hinv.blocked T (Or.inr (Or.inl hwait))
  have hst : (xTaskNotify k T ulValue eAction).state T = eReady := by
    simp [xTaskNotify, hb, hwait, prvWake]
  have hnb : (xTaskNotify k T ulValue eAction).state T ≠ eBlocked := by
    rw [hst]
    decide
  exact ⟨hst, hnb, classify_of_not_blocked (hinv.notify T ulValue eAction) hnb⟩

set_option maxRecDepth 100000 in
theorem C4_notify_wake_correct_witness :
    (Kernel.init.run scenarioB2).notifyWait 3 = true ∧
      vTaskGetCurrentBlocker (xTaskNotify (Kernel.init.run scenarioB2) 3 0xDC eNoAction) 3 =
        { eStatus := eNotBlocked, pxEventList := none, xUntilTick := none } :=
  ⟨by decide, (C4_notify_wake_correct scenarioB2 3 0xDC eNoAction (by decide)).2.2⟩

/-- C5 (timed-block correctness).  After any history of kernel calls, let the running
task `T` call `vTaskDelay(d)` with `d > 0` at tick `n`, and let any further sequence of
kernel calls follow that does not delete `T`.  While the tick count is below `n + d`,
the classifier reports `eBlockedForTime` with wake tick exactly `n + d` and the state is
`eBlocked`.  Once the tick count has reached `n + d`, and as long as `T` has made no call
that blocks it again, the classifier reports not blocked and the state is not
`eBlocked`. -/
theorem C5_timed_block_correct (ops : List Op) (T : TaskHandle_t) (d : TickType_t)
    (hrun : (Kernel.init.run ops).state T = eRunning) (hd : 0 < d)
    (later : List Op) (hlive : ∀ op ∈ later, op.deletesTask T = false) :
    (((vTaskDelay (Kernel.init.run ops) T d).run later).xTickCount <
          (Kernel.init.run ops).xTickCount + d →
        vTaskGetCurrentBlocker ((vTaskDelay (Kernel.init.run ops) T d).run later) T =
          { eStatus := eBlockedForTime, pxEventList := none,
            xUntilTick := some ((Kernel.init.run ops).xTickCount + d) } ∧
        eTaskGetState ((vTaskDelay (Kernel.init.run ops) T d).run later) T = eBlocked) ∧
      ((Kernel.init.run ops).xTickCount + d ≤
          ((vTaskDelay (Kernel.init.run ops) T d).run later).xTickCount →
        (vTaskDelay (Kernel.init.run ops) T d).noBlockingCall T later = true →
        vTaskGetCurrentBlocker ((vTaskDelay (Kernel.init.run ops) T d).run later) T =
          { eStatus := eNotBlocked, pxEventList := none, xUntilTick := none } ∧
        eTaskGetState ((vTaskDelay (Kernel.init.run ops) T d).run later) T ≠ eBlocked) := by
  have hinv : (Kernel.init.run ops).Inv := Kernel.Inv.init.run ops
  generalize Kernel.init.run ops = k at *
  have hno : ∀ o, T ∉ k.waitList o := fun o hm => by
    have := hinv.blocked T (Or.inl ⟨o, hm⟩)
    rw [hrun] at this
    cases this
  have hnw : k.notifyWait T = false := by
    cases hn : k.notifyWait T with
    | false => rfl
    | true =>
      have := hinv.blocked T (Or.inr (Or.inl hn))
      rw [hrun] at this
      cases this
  have hinv1 : (vTaskDelay k T d).Inv := hinv.delay T d
  have h1 : ∀ o, T ∉ (vTaskDelay k T d).waitList o := by
    intro o
    simpa [vTaskDelay, hrun] using hno o
  have h2 : (vTaskDelay k T d).notifyWait T = false := by
    simpa [vTaskDelay, hrun] using hnw
  have h3 : (vTaskDelay k T d).deadline T = some (k.xTickCount + d) := by
    simp [vTaskDelay, hrun]
  have h4 : (vTaskDelay k T d).state T = eBlocked := by
    simp [vTaskDelay, hrun]
  have h5 : (vTaskDelay k T d).xTickCount < k.xTickCount + d := by
    simp [vTaskDelay, hrun]
    exact hd
  constructor
  · intro hlt
    obtain ⟨r1, r2, r3, r4⟩ := Kernel.run_time_blocked hinv1 h1 h2 h3 h4 later hlive hlt
    refine ⟨?_, r4⟩
    rw [classify_off_lists r1, r2, r3]
    rfl
  · intro hge hnb
    have hs := Kernel.run_time_elapsed hinv1 (Or.inl ⟨h1, h2, h3, h4, h5⟩) later hlive hnb hge
    exact ⟨classify_of_not_blocked (hinv1.run later) hs, hs⟩

set_option maxRecDepth 100000 in
theorem C5_timed_block_correct_witness :
    (Kernel.init.run scenarioC).state 4 = eRunning ∧ (0 : TickType_t) < 1000 ∧
      (Kernel.init.run scenarioC).xTickCount = 0 ∧
      vTaskGetCurrentBlocker ((vTaskDelay (Kernel.init.run scenarioC) 4 1000).run
          (List.replicate 100 .tick ++ [.switch 1, .getBlocker 4, .getState 4])) 4 =
        { eStatus := eBlockedForTime, pxEventList := none, xUntilTick := some 1000 } ∧
      vTaskGetCurrentBlocker ((vTaskDelay (Kernel.init.run scenarioC) 4 5).run
          (List.replicate 5 .tick ++ [.switch 4, .take 4 9 0, .getBlocker 4])) 4 =
        { eStatus := eNotBlocked, pxEventList := none, xUntilTick := none } :=
  ⟨by decide, by decide, by decide,
    ((C5_timed_block_correct scenarioC 4 1000 (by decide) (by decide)
      (List.replicate 100 .tick ++ [.switch 1, .getBlocker 4, .getState 4]) (by decide)).1
        (by decide)).1,
    ((C5_timed_block_correct scenarioC 4 5 (by decide) (by decide)
      (List.replicate 5 .tick ++ [.switch 4, .take 4 9 0, .getBlocker 4]) (by decide)).2
        (by decide) (by decide)).1⟩

/-- C6, as amended.  Scenario C of `prvTest` asserts that the sleeper's state is `eBlocked`
and the classifier's status is `eBlockedForTime`, and prints the reported wake tick
without comparing it: whatever wake tick the classifier reports at line 208, the run
ends the same way and prints "Pass." (and "Fail.") in exactly the same cases. -/
theorem C6_wake_tick_not_asserted (env : TestEnv) (u : Option TickType_t) :
    (prvTest (env.withUntilTick u)).outcome = (prvTest env).outcome ∧
      ((prvTest (env.withUntilTick u)).prints "Pass.\n" ↔ (prvTest env).prints "Pass.\n") ∧
      ((prvTest (env.withUntilTick u)).prints "Fail.\n" ↔ (prvTest env).prints "Fail.\n") := by
  have h : (prvTest (env.withUntilTick u)).sameVerdict (prvTest env) := by
    unfold prvTest
    simp only [TestEnv.withUntilTick, configASSERT]
    simp only [show (161 : Nat) ≠ 208 by decide, show (169 : Nat) ≠ 208 by decide,
      show (185 : Nat) ≠ 208 by decide, show (192 : Nat) ≠ 208 by decide,
      show (216 : Nat) ≠ 208 by decide, if_true, if_false]
    repeat' (first
      | exact Proc.sameVerdict_refl _
      | exact sameVerdict_printf_args _ _ _
      | refine Proc.sameVerdict_bind ?_ (fun _ => ?_))
  exact ⟨h.1, h.2 _, h.2 _⟩

/-- The run of `prvTest` in which the classifier reports wake tick 5 for a sleeper that
called `vTaskDelay(1000)` at tick 100. -/
theorem C6_counterexample :
    (vAlwaysDelay [100]).trace =
        [.xTaskGetTickCount, .printf "[Task][sleeper] Waking up at Tick=%d\n" [.num 1100],
          .vTaskDelay 1000] ∧
      ((envPass.withUntilTick (some 5)).blocker 208).eStatus = eBlockedForTime ∧
      ((envPass.withUntilTick (some 5)).blocker 208).xUntilTick ≠ some (100 + 1000) ∧
      (envPass.withUntilTick (some 5)).assertEnabled = true ∧
      (prvTest (envPass.withUntilTick (some 5))).prints "Pass.\n" ∧
      ¬ (prvTest (envPass.withUntilTick (some 5))).prints "Fail.\n" ∧
      Event.exit 1 ∉ (prvTest (envPass.withUntilTick (some 5))).trace := by
  decide

/-- C7 (self-classification).  After any history of kernel calls, whatever blocking
the task went through in it, the classifier reports not blocked for a task that is
running. -/
theorem C7_self_classification (ops : List Op) (T : TaskHandle_t)
    (hrun : (Kernel.init.run ops).state T = eRunning) :
    vTaskGetCurrentBlocker (Kernel.init.run ops) T =
      { eStatus := eNotBlocked, pxEventList := none, xUntilTick := none } :=
  classify_of_not_blocked (Kernel.Inv.init.run ops) (by rw [hrun]; decide)

set_option maxRecDepth 100000 in
theorem C7_self_classification_witness :
    (Kernel.init.run (scenarioA2 ++ [.give 7, .delay 1 100, .switch 2, .take 2 7 portMAX_DELAY,
        .give 7] ++ List.replicate 100 .tick ++ [.switch 1])).state 1 = eRunning ∧
      vTaskGetCurrentBlocker
        (Kernel.init.run (scenarioA2 ++ [.give 7, .delay 1 100, .switch 2,
          .take 2 7 portMAX_DELAY, .give 7] ++ List.replicate 100 .tick ++ [.switch 1])) 1 =
        { eStatus := eNotBlocked, pxEventList := none, xUntilTick := none } :=
  ⟨by decide, C7_self_classification _ 1 (by decide)⟩

/-- C8 (fixed precedence of the classifier).  For every scheduler state and task the
classifier returns one record, decided in this order: (a) if the task is a member of
the wait list of some object, the status is `eBlockedForEvent` and the reported event
list is the wait list of an object that has the task as a member; (b) else, if the
task is inside a notification wait, `eBlockedForNotification`; (c) else, if it has a
pending deadline `w`, `eBlockedForTime` with wake tick `w`; (d) else `eNotBlocked`.  In
particular a task that is on a wait list and also has a pending deadline is reported
`eBlockedForEvent`, not `eBlockedForTime`. -/
theorem C8_classifier_precedence (k : Kernel) (T : TaskHandle_t) :
    ((∃ o ∈ k.objs, T ∈ k.waitList o) →
        ∃ o ∈ k.objs, T ∈ k.waitList o ∧ vTaskGetCurrentBlocker k T =
          { eStatus := eBlockedForEvent, pxEventList := some ⟨o⟩, xUntilTick := none }) ∧
      ((∀ o ∈ k.objs, T ∉ k.waitList o) → k.notifyWait T = true →
        vTaskGetCurrentBlocker k T =
          { eStatus := eBlockedForNotification, pxEventList := none, xUntilTick := none }) ∧
      ((∀ o ∈ k.objs, T ∉ k.waitList o) → k.notifyWait T = false →
        ∀ w, k.deadline T = some w → vTaskGetCurrentBlocker k T =
          { eStatus := eBlockedForTime, pxEventList := none, xUntilTick := some w }) ∧
      ((∀ o ∈ k.objs, T ∉ k.waitList o) → k.notifyWait T = false → k.deadline T = none →
        vTaskGetCurrentBlocker k T =
          { eStatus := eNotBlocked, pxEventList := none, xUntilTick := none }) ∧
      ((∃ o ∈ k.objs, T ∈ k.waitList o) → k.deadline T ≠ none →
        (vTaskGetCurrentBlocker k T).eStatus = eBlockedForEvent ∧
          (vTaskGetCurrentBlocker k T).eStatus ≠ eBlockedForTime) := by
  refine ⟨?_, ?_, ?_, ?_, ?_⟩
  · intro h
    obtain ⟨o, ho⟩ := prvEventObject_some_of_mem h
    have hm := prvEventObject_mem ho
    exact ⟨o, hm.1, hm.2, by simp [vTaskGetCurrentBlocker, ho]⟩
  · intro h hn
    simp [vTaskGetCurrentBlocker, prvEventObject_none_of_not_mem h, hn]
  · intro h hn w hw
    simp [vTaskGetCurrentBlocker, prvEventObject_none_of_not_mem h, hn, hw]
  · intro h hn hd
    simp [vTaskGetCurrentBlocker, prvEventObject_none_of_not_mem h, hn, hd]
  · intro h _
    obtain ⟨o, ho⟩ := prvEventObject_some_of_mem h
    simp [vTaskGetCurrentBlocker, ho]

theorem C8_classifier_precedence_witness :
    2 ∈ (Kernel.init.run scenarioTimed).waitList 7 ∧
      (Kernel.init.run scenarioTimed).deadline 2 = some 50 ∧
      (vTaskGetCurrentBlocker (Kernel.init.run scenarioTimed) 2).eStatus = eBlockedForEvent ∧
      (vTaskGetCurrentBlocker (Kernel.init.run scenarioTimed) 2).eStatus ≠ eBlockedForTime := by
  have h1 : 7 ∈ (Kernel.init.run scenarioTimed).objs := by decide
  have h2 : 2 ∈ (Kernel.init.run scenarioTimed).waitList 7 := by decide
  have h3 : (Kernel.init.run scenarioTimed).deadline 2 = some 50 := by decide
  have h4 : (Kernel.init.run scenarioTimed).deadline 2 ≠ none := by
    rw [h3]
    exact Option.some_ne_none 50
  have h5 : ∃ o ∈ (Kernel.init.run scenarioTimed).objs,
      2 ∈ (Kernel.init.run scenarioTimed).waitList o := ⟨7, h1, h2⟩
  exact ⟨h2, h3, (C8_classifier_precedence (Kernel.init.run scenarioTimed) 2).2.2.2.2 h5 h4⟩

/-- C10 (assertion failure is fatal).  For every line number, file name and value of
`GetLastError()`, `vAssertCalled` prints the diagnostic line, then "Fail.", then calls
`exit(1)`: the process ends with status 1, and nothing that follows the call in the
caller is executed. -/
theorem C10_assert_fatal (ulLine : Nat) (pcFileName : String) (lastError : Nat) :
    (vAssertCalled ulLine pcFileName lastError).trace =
        [.printf "ASSERT! Line %ld, file %s, GetLastError() %ld\r\n"
            [.num ulLine, .str pcFileName, .num lastError],
          .printf "Fail.\n" [], .exit 1] ∧
      (vAssertCalled ulLine pcFileName lastError).outcome = .halted (.exited 1) ∧
      (∀ (β : Type) (rest : Unit → Proc β),
        (vAssertCalled ulLine pcFileName lastError >>= rest).trace =
            (vAssertCalled ulLine pcFileName lastError).trace ∧
          (vAssertCalled ulLine pcFileName lastError >>= rest).outcome =
            .halted (.exited 1)) := by
  refine ⟨rfl, rfl, ?_⟩
  intro β rest
  exact ⟨rfl, rfl⟩

/-- C11 (an assertion failure is fatal, and "Pass." means that every assertion held).
With assertions enabled, for every answer of the kernel to every call: `prvTest` prints
"Pass." exactly when the initial take loop ends and each of its ten assertion
conditions is true; when the loop ends and the first false condition is the one of
line `l`, the run ends in `exit(1)` with the three events of `vAssertCalled` for line `l`
as its last events, prints "Fail." and does not print "Pass."; and no run prints both. -/
theorem C11_pass_iff_assertions_hold (env : TestEnv) (hen : env.assertEnabled = true) :
    ((prvTest env).prints "Pass.\n" ↔
        pdTRUE ∈ env.take ∧ ∀ l ∈ assertLines, env.cond l = true) ∧
      (pdTRUE ∈ env.take → ∀ l ∈ assertLines,
        (∀ l2 ∈ assertLines, l2 < l → env.cond l2 = true) → env.cond l = false →
        (prvTest env).outcome = .halted (.exited 1) ∧
          (vAssertCalled l env.pcFile env.lastError).trace <:+ (prvTest env).trace ∧
          (prvTest env).prints "Fail.\n" ∧ ¬ (prvTest env).prints "Pass.\n") ∧
      ¬ ((prvTest env).prints "Pass.\n" ∧ (prvTest env).prints "Fail.\n") := by
  have hiff : (prvTest env).prints "Pass.\n" ↔
      pdTRUE ∈ env.take ∧ ∀ l ∈ assertLines, env.cond l = true := by
    constructor
    · intro hp
      by_cases htake : pdTRUE ∈ env.take
      · refine ⟨htake, ?_⟩
        by_contra hall
        have hex : ∃ l ∈ assertLines, env.cond l = false := by
          by_contra hne
          apply hall
          intro l hl
          cases hc : env.cond l with
          | true => rfl
          | false => exact absurd ⟨l, hl, hc⟩ hne
        obtain ⟨l, hl, hprev, hc⟩ := exists_first_failure env hex
        exact (prvTest_fails_at env hen htake l hl hprev hc).2.2.2 hp
      · exact absurd hp (prvTest_stalls env htake).2.1
    · rintro ⟨htake, hall⟩
      exact (prvTest_passes env hen htake hall).2.1
  refine ⟨hiff, fun htake l hl hprev hc => prvTest_fails_at env hen htake l hl hprev hc, ?_⟩
  rintro ⟨hp, hf⟩
  obtain ⟨htake, hall⟩ := hiff.1 hp
  exact (prvTest_passes env hen htake hall).2.2.1 hf

theorem C11_pass_iff_assertions_hold_witness :
    envPass.assertEnabled = true ∧ (prvTest envPass).prints "Pass.\n" ∧
      envFail187.cond 187 = false ∧
      (prvTest envFail187).outcome = .halted (.exited 1) ∧
      (prvTest envFail187).prints "Fail.\n" ∧ ¬ (prvTest envFail187).prints "Pass.\n" :=
  ⟨rfl, (C11_pass_iff_assertions_hold envPass rfl).1.2 ⟨by decide, by decide⟩, by decide,
    ((C11_pass_iff_assertions_hold envFail187 rfl).2.1 (by decide) 187 (by decide)
      (by decide) (by decide)).1,
    ((C11_pass_iff_assertions_hold envFail187 rfl).2.1 (by decide) 187 (by decide)
      (by decide) (by decide)).2.2⟩

/-- C12 (a failed task creation is fatal).  With assertions enabled: if the `xTaskCreate`
of `main` returns a status other than `pdPASS`, `main` performs the creation call, then
the three events of `vAssertCalled`, ends in `exit(1)` and never starts the scheduler;
and if a run of `prvTest` reaches one of its three creation calls (lines 152, 176,
199: the initial take loop ended and the earlier assertions held) and the call
returns a status other than `pdPASS`, the run ends in `exit(1)` with the creation call
and the three events of `vAssertCalled` as its last events, without printing "Pass.". -/
theorem C12_creation_failure_fatal (env : TestEnv) (schedulerReturns : Bool)
    (hen : env.assertEnabled = true) :
    ((env.create 234).1 ≠ pdPASS →
        (main env schedulerReturns).outcome = .halted (.exited 1) ∧
          (main env schedulerReturns).trace =
            [.vPortDefineHeapRegions
                (xHeapRegions mainREGION_1_SIZE mainREGION_2_SIZE mainREGION_3_SIZE),
              .printf "\nStarting...\n" [], .vSemaphoreCreateBinary,
              .xTaskCreate .prvTest "test" configMINIMAL_STACK_SIZE NULL
                (tskIDLE_PRIORITY + 1)] ++
              (vAssertCalled 234 env.pcFile env.lastError).trace ∧
          Event.vTaskStartScheduler ∉ (main env schedulerReturns).trace) ∧
      (pdTRUE ∈ env.take → ∀ l ∈ [152, 176, 199],
        (∀ l2 ∈ assertLines, l2 < l → env.cond l2 = true) → (env.create l).1 ≠ pdPASS →
        (prvTest env).outcome = .halted (.exited 1) ∧
          (Event.xTaskCreate (workerOf l).1 (workerOf l).2 configMINIMAL_STACK_SIZE
              (tskIDLE_PRIORITY + 1) NULL ::
            (vAssertCalled l env.pcFile env.lastError).trace) <:+ (prvTest env).trace ∧
          (prvTest env).prints "Fail.\n" ∧ ¬ (prvTest env).prints "Pass.\n") := by
  constructor
  · intro hc
    rw [main_create_fails env schedulerReturns hen hc]
    refine ⟨rfl, rfl, ?_⟩
    simp [vAssertCalled, printf, exit, Proc.emit, Proc.bind_returned]
  · intro htake l hl hprev hc
    have hcond : env.cond l = false := by
      have hc2 : ¬ pdPASS = (env.create l).1 := fun e => hc e.symm
      simp only [List.mem_cons, List.mem_singleton, List.not_mem_nil, or_false] at hl
      rcases hl with rfl | rfl | rfl <;> simp [TestEnv.cond, hc2]
    have hl2 : l ∈ assertLines := by
      simp only [List.mem_cons, List.mem_singleton, List.not_mem_nil, or_false] at hl
      rcases hl with rfl | rfl | rfl <;> decide
    have h1 := prvTest_fails_at env hen htake l hl2 hprev hcond
    exact ⟨h1.1, prvTest_create_fails_at env hen htake l hl hprev hcond, h1.2.2.1, h1.2.2.2⟩

theorem C12_creation_failure_fatal_witness :
    envCreateFail176.assertEnabled = true ∧ (envCreateFail176.create 176).1 ≠ pdPASS ∧
      (prvTest envCreateFail176).outcome = .halted (.exited 1) ∧
      (envCreateFail234.create 234).1 ≠ pdPASS ∧
      (main envCreateFail234 false).outcome = .halted (.exited 1) :=
  ⟨rfl, by decide,
    ((C12_creation_failure_fatal envCreateFail176 false rfl).2 (by decide) 176 (by decide)
      (by decide) (by decide)).1,
    by decide,
    ((C12_creation_failure_fatal envCreateFail234 false rfl).1 (by decide)).1⟩

/-- C13 (a failed blocking call is not fatal).  For every list `rs` of results of the
successive calls: each of the two retry loops makes one call for every leading
non-success result and one more, and nothing else; the loop ends exactly when a call
returned success.  The semaphore worker and the notification worker print their
"received" message exactly when a call returned success, and never print "Fail." or
call `exit`.  In `prvTest` a take loop that never sees success leaves the run stalled
in the loop without "Fail." and without `exit`; and "Fail." is printed only if an
assertion condition, which does not depend on the results of the take, is false. -/
theorem C13_blocking_failure_not_fatal (sem : SemaphoreHandle_t) (rs : List BaseType_t)
    (env : TestEnv) :
    prvTakeLoop sem rs =
        ⟨List.replicate ((rs.takeWhile (fun r => decide (pdTRUE ≠ r))).length + 1)
            (.xSemaphoreTake sem portMAX_DELAY),
          if pdTRUE ∈ rs then .returned () else .halted .stalled⟩ ∧
      prvNotifyWaitLoop rs =
        ⟨List.replicate ((rs.takeWhile (fun r => decide (pdPASS ≠ r))).length + 1)
            (.xTaskNotifyWait 0 0 portMAX_DELAY),
          if pdPASS ∈ rs then .returned () else .halted .stalled⟩ ∧
      ((vWaitForSemaphore sem rs).prints "[Task][Sem-wait] xSharedSem received\n" ↔
        pdTRUE ∈ rs) ∧
      ((vWaitForNotification rs).prints "[Task][notify-wait] notification received\n" ↔
        pdPASS ∈ rs) ∧
      (¬ (vWaitForSemaphore sem rs).prints "Fail.\n" ∧
        ∀ status, Event.exit status ∉ (vWaitForSemaphore sem rs).trace) ∧
      (¬ (vWaitForNotification rs).prints "Fail.\n" ∧
        ∀ status, Event.exit status ∉ (vWaitForNotification rs).trace) ∧
      (pdTRUE ∉ env.take →
        (prvTest env).outcome = .halted .stalled ∧ ¬ (prvTest env).prints "Fail.\n" ∧
          ∀ status, Event.exit status ∉ (prvTest env).trace) ∧
      ((prvTest env).prints "Fail.\n" → ∃ l ∈ assertLines, env.cond l = false) := by
  refine ⟨prvTakeLoop_eq sem rs, prvNotifyWaitLoop_eq rs, ?_, ?_, ?_, ?_, ?_, ?_⟩
  · rw [vWaitForSemaphore_eq]
    by_cases h : pdTRUE ∈ rs <;> simp [h, Proc.prints]
  · rw [vWaitForNotification_eq]
    by_cases h : pdPASS ∈ rs <;> simp [h, Proc.prints]
  · rw [vWaitForSemaphore_eq]
    by_cases h : pdTRUE ∈ rs <;> simp [h, Proc.prints]
  · rw [vWaitForNotification_eq]
    by_cases h : pdPASS ∈ rs <;> simp [h, Proc.prints]
  · intro htake
    have h := prvTest_stalls env htake
    exact ⟨h.1, h.2.2.1, h.2.2.2.1⟩
  · intro hf
    by_contra hne
    have hall : ∀ l ∈ assertLines, env.cond l = true := by
      intro l hl
      cases hc : env.cond l with
      | true => rfl
      | false => exact absurd ⟨l, hl, hc⟩ hne
    cases hen : env.assertEnabled with
    | false => exact (prvTest_no_assert env hen).1 hf
    | true =>
      by_cases htake : pdTRUE ∈ env.take
      · exact (prvTest_passes env hen htake hall).2.2.1 hf
      · exact (prvTest_stalls env htake).2.2.1 hf

theorem C13_blocking_failure_not_fatal_witness :
    (prvTakeLoop 7 [0, 0, 1]).trace = List.replicate 3 (.xSemaphoreTake 7 portMAX_DELAY) ∧
      (prvTakeLoop 7 [0, 0, 1]).outcome = .returned () ∧
      (prvTest envRetry).prints "Pass.\n" ∧ ¬ (prvTest envRetry).prints "Fail.\n" :=
  ⟨congrArg Proc.trace (C13_blocking_failure_not_fatal 7 [0, 0, 1] envRetry).1,
    by decide, by decide, by decide⟩

/-- C14, as amended.  The worker of the notification scenario waits with both clear
masks 0 and the infinite timeout, and every notification that `prvTest` sends passes
the value 0xDC with the action `eNoAction`.  After any history of kernel calls, for a
task `T` inside a notification wait that cleared no bits on exit, such a notification
makes `T` Ready and leaves its notification value as it was; the value would be 0xDC
with the action `eSetValueWithOverwrite`. -/
theorem C14_notify_leaves_value (ops : List Op) (T : TaskHandle_t)
    (hwait : (Kernel.init.run ops).notifyWait T = true)
    (hmask : (Kernel.init.run ops).exitMask T = 0) :
    (∀ rs entry exit n, Event.xTaskNotifyWait entry exit n ∈ (vWaitForNotification rs).trace →
        entry = 0 ∧ exit = 0 ∧ n = portMAX_DELAY) ∧
      (∀ env h v a, Event.xTaskNotify h v a ∈ (prvTest env).trace →
        v = 0xDC ∧ a = eNoAction) ∧
      (xTaskNotify (Kernel.init.run ops) T 0xDC eNoAction).value T =
        (Kernel.init.run ops).value T ∧
      eTaskGetState (xTaskNotify (Kernel.init.run ops) T 0xDC eNoAction) T = eReady ∧
      (xTaskNotify (Kernel.init.run ops) T 0xDC eSetValueWithOverwrite).value T = 0xDC := by
  have hinv : (Kernel.init.run ops).Inv := Kernel.Inv.init.run ops
  generalize Kernel.init.run ops = k at *
  have hb : k.state T = eBlocked := hinv.blocked T (Or.inr (Or.inl hwait))
  refine ⟨?_, ?_, ?_, ?_, ?_⟩
  · intro rs entry exit n he
    rw [vWaitForNotification_eq] at he
    by_cases h : pdPASS ∈ rs
    · simp only [h, if_true, List.mem_cons, List.mem_append, List.mem_singleton,
        List.not_mem_nil, or_false, reduceCtorEq, false_or] at he
      have := List.eq_of_mem_replicate he
      simp only [Event.xTaskNotifyWait.injEq] at this
      exact this
    · simp only [h, if_false, List.mem_cons, reduceCtorEq, false_or] at he
      have := List.eq_of_mem_replicate he
      simp only [Event.xTaskNotifyWait.injEq] at this
      exact this
  · intro env h v a he
    exact prvTest_notify_events env _ he h v a rfl
  · simp [xTaskNotify, hb, hwait, hmask, prvWake, prvRetract, prvNotifyValue, prvClearBits]
  · simp [eTaskGetState, xTaskNotify, hb, hwait, prvWake]
  · simp [xTaskNotify, hb, hwait, hmask, prvWake, prvRetract, prvNotifyValue, prvClearBits]

set_option maxRecDepth 100000 in
theorem C14_notify_leaves_value_witness :
    (Kernel.init.run scenarioB2).notifyWait 3 = true ∧
      (Kernel.init.run scenarioB2).exitMask 3 = 0 ∧
      (Kernel.init.run scenarioB2).value 3 = 0 ∧
      (xTaskNotify (Kernel.init.run scenarioB2) 3 0xDC eNoAction).value 3 =
        (Kernel.init.run scenarioB2).value 3 := by
  have h1 : (Kernel.init.run scenarioB2).notifyWait 3 = true := by decide
  have h2 : (Kernel.init.run scenarioB2).exitMask 3 = 0 := by decide
  have h3 : (Kernel.init.run scenarioB2).value 3 = 0 := by decide
  exact ⟨h1, h2, h3, (C14_notify_leaves_value scenarioB2 3 h1 h2).2.2.1⟩

set_option maxRecDepth 100000 in
/-- The notification scenario: the tester's call `xTaskNotify(xHandle, 0xDC, eNoAction)`
is in the run of `prvTest`; on the kernel model, when the tester notifies the waiting
worker (task 3) in this way, the worker's notification value is 0 afterwards, not
0xDC. -/
theorem C14_counterexample :
    Event.xTaskNotify 3 0xDC eNoAction ∈ (prvTest envPass).trace ∧
      Event.xTaskNotifyWait 0 0 portMAX_DELAY ∈ (vWaitForNotification [1]).trace ∧
      (Kernel.init.run scenarioB2).notifyWait 3 = true ∧
      eTaskGetState (xTaskNotify (Kernel.init.run scenarioB2) 3 0xDC eNoAction) 3 = eReady ∧
      (xTaskNotify (Kernel.init.run scenarioB2) 3 0xDC eNoAction).value 3 = 0 ∧
      (xTaskNotify (Kernel.init.run scenarioB2) 3 0xDC eNoAction).value 3 ≠ 0xDC := by
  decide

/-- C15 (deleting a task leaves no dangling reference).  For every scheduler state and
every task `T`, blocked or not: after `vTaskDelete(T)` no wait list contains `T`, `T` has no
deadline and is in no notification wait, and its state is Deleted; every wait list
is the former one without `T`, in the same order; and every other task has the
registrations, the state and the classification it had before. -/
theorem C15_delete_no_dangling (k : Kernel) (T : TaskHandle_t) :
    (∀ o, T ∉ (vTaskDelete k T).waitList o) ∧
      (vTaskDelete k T).deadline T = none ∧
      (vTaskDelete k T).notifyWait T = false ∧
      eTaskGetState (vTaskDelete k T) T = eDeleted ∧
      (∀ o, (vTaskDelete k T).waitList o = (k.waitList o).filter (fun x => decide (x ≠ T))) ∧
      (∀ U, U ≠ T →
        (∀ o, U ∈ (vTaskDelete k T).waitList o ↔ U ∈ k.waitList o) ∧
          (vTaskDelete k T).deadline U = k.deadline U ∧
          (vTaskDelete k T).notifyWait U = k.notifyWait U ∧
          eTaskGetState (vTaskDelete k T) U = eTaskGetState k U ∧
          vTaskGetCurrentBlocker (vTaskDelete k T) U = vTaskGetCurrentBlocker k U) := by
  refine ⟨?_, ?_, ?_, ?_, fun _ => rfl, ?_⟩
  · intro o hm
    have := (mem_prvRetract (k := k)).1 hm
    exact this.2 rfl
  · simp [vTaskDelete, prvRetract]
  · simp [vTaskDelete, prvRetract]
  · simp [eTaskGetState, vTaskDelete]
  · intro U hU
    have hs := sameBlocking_vTaskDelete (k := k) hU
    exact ⟨hs.1, hs.2.2.1, hs.2.1, hs.2.2.2, classify_congr hs rfl⟩

set_option maxRecDepth 100000 in
/-- The tester deletes the sleeper of Scenario C while it is blocked with the wake
tick 1000: afterwards the sleeper holds no deadline and the tester is as before. -/
theorem C15_delete_no_dangling_witness :
    vTaskGetCurrentBlocker (Kernel.init.run scenarioC2) 4 =
        { eStatus := eBlockedForTime, pxEventList := none, xUntilTick := some 1000 } ∧
      (vTaskDelete (Kernel.init.run scenarioC2) 4).deadline 4 = none ∧
      eTaskGetState (vTaskDelete (Kernel.init.run scenarioC2) 4) 1 =
        eTaskGetState (Kernel.init.run scenarioC2) 1 := by
  have h := C15_delete_no_dangling (Kernel.init.run scenarioC2) 4
  have h1 : vTaskGetCurrentBlocker (Kernel.init.run scenarioC2) 4 =
      { eStatus := eBlockedForTime, pxEventList := none, xUntilTick := some 1000 } := by
    decide
  exact ⟨h1, h.2.1, (h.2.2.2.2.2 1 (by decide)).2.2.2.1⟩

/-- C16 (idle task memory).  For every pair of addresses of the two static objects
(non-null, as the address of an object is), `vApplicationGetIdleTaskMemory` hands out
the address of the static TCB, the address of the static stack array, both non-null,
and a stack size equal to the number of elements of that array, which is
`configMINIMAL_STACK_SIZE` = 60; the result depends on nothing else, so every call
returns the same three values. -/
theorem C16_idle_task_memory (xIdleTaskTCB uxIdleTaskStack : Nat)
    (hTCB : xIdleTaskTCB ≠ NULL) (hStack : uxIdleTaskStack ≠ NULL) :
    (vApplicationGetIdleTaskMemory xIdleTaskTCB uxIdleTaskStack).ppxIdleTaskTCBBuffer =
        xIdleTaskTCB ∧
      (vApplicationGetIdleTaskMemory xIdleTaskTCB uxIdleTaskStack).ppxIdleTaskTCBBuffer ≠
        NULL ∧
      (vApplicationGetIdleTaskMemory xIdleTaskTCB uxIdleTaskStack).ppxIdleTaskStackBuffer =
        uxIdleTaskStack ∧
      (vApplicationGetIdleTaskMemory xIdleTaskTCB uxIdleTaskStack).ppxIdleTaskStackBuffer ≠
        NULL ∧
      (vApplicationGetIdleTaskMemory xIdleTaskTCB uxIdleTaskStack).pulIdleTaskStackSize =
        uxIdleTaskStackLength ∧
      (vApplicationGetIdleTaskMemory xIdleTaskTCB uxIdleTaskStack).pulIdleTaskStackSize =
        configMINIMAL_STACK_SIZE ∧
      configMINIMAL_STACK_SIZE = 60 :=
  ⟨rfl, hTCB, rfl, hStack, rfl, rfl, rfl⟩

theorem C16_idle_task_memory_witness :
    (4096 : Nat) ≠ NULL ∧ (8192 : Nat) ≠ NULL ∧
      vApplicationGetIdleTaskMemory 4096 8192 =
        { ppxIdleTaskTCBBuffer := 4096, ppxIdleTaskStackBuffer := 8192,
          pulIdleTaskStackSize := 60 } ∧
      (vApplicationGetIdleTaskMemory 4096 8192).pulIdleTaskStackSize = 60 :=
  ⟨by decide, by decide, rfl,
    (C16_idle_task_memory 4096 8192 (by decide) (by decide)).2.2.2.2.2.1⟩

/-- C18 (the heap sanity assertion), amended.  For all region sizes whose sum with
`ulAdditionalOffset` stays below 2^32, the condition of the assertion, as the code
computes it, is true exactly when `19 + s1 + s2 + s3 < configTOTAL_HEAP_SIZE`, and when
it is true each of the three regions of the table lies inside the array `ucHeap` of
`configTOTAL_HEAP_SIZE` bytes.  With assertions compiled in, `prvInitialiseHeap` passes
the table to `vPortDefineHeapRegions` when the condition is true and ends in
`vAssertCalled` for line 358, without defining the regions, when it is false.  The
condition is true for the defined sizes 8201, 29905 and 7607 and the heap of
2048 * 1024 bytes, so `prvInitialiseHeap` never calls `vAssertCalled`, whether
assertions are compiled in or not. -/
theorem C18_heap_regions_fit (s1 s2 s3 : Nat) (env : TestEnv)
    (h : ulAdditionalOffset + s1 + s2 + s3 < 2 ^ 32) :
    (prvHeapSanity s1 s2 s3 = true ↔
        ulAdditionalOffset + s1 + s2 + s3 < configTOTAL_HEAP_SIZE) ∧
      (prvHeapSanity s1 s2 s3 = true →
        ∀ r ∈ (xHeapRegions s1 s2 s3).take 3, r.inside configTOTAL_HEAP_SIZE) ∧
      (env.assertEnabled = true → prvHeapSanity s1 s2 s3 = true →
        prvInitialiseHeap env s1 s2 s3 =
          ⟨[.vPortDefineHeapRegions (xHeapRegions s1 s2 s3)], .returned ()⟩) ∧
      (env.assertEnabled = true → prvHeapSanity s1 s2 s3 = false →
        prvInitialiseHeap env s1 s2 s3 =
          ⟨(vAssertCalled 358 env.pcFile env.lastError).trace, .halted (.exited 1)⟩) ∧
      prvHeapSanity mainREGION_1_SIZE mainREGION_2_SIZE mainREGION_3_SIZE = true ∧
      ulAdditionalOffset + mainREGION_1_SIZE + mainREGION_2_SIZE + mainREGION_3_SIZE <
        configTOTAL_HEAP_SIZE ∧
      configTOTAL_HEAP_SIZE = 2048 * 1024 ∧
      prvInitialiseHeap env mainREGION_1_SIZE mainREGION_2_SIZE mainREGION_3_SIZE =
        ⟨[.vPortDefineHeapRegions
            (xHeapRegions mainREGION_1_SIZE mainREGION_2_SIZE mainREGION_3_SIZE)],
          .returned ()⟩ := by
  have hH : configTOTAL_HEAP_SIZE = 2097152 := by decide
  have hsum : prvHeapSum s1 s2 s3 = ulAdditionalOffset + s1 + s2 + s3 :=
    prvHeapSum_eq s1 s2 s3 h
  have hiff : prvHeapSanity s1 s2 s3 = true ↔
      ulAdditionalOffset + s1 + s2 + s3 < configTOTAL_HEAP_SIZE := by
    simp only [prvHeapSanity, hsum, decide_eq_true_eq]
  refine ⟨hiff, ?_, ?_, ?_, by decide, by decide, by decide, ?_⟩
  · intro hs r hr
    have hlt := hiff.1 hs
    simp only [ulAdditionalOffset, hH] at hlt
    simp only [xHeapRegions, List.take, List.mem_cons, List.mem_singleton, List.not_mem_nil,
      or_false] at hr
    rcases hr with rfl | rfl | rfl
    · exact ⟨1, rfl, by simp only [hH]; omega⟩
    · exact ⟨15 + s1, rfl, by simp only [hH]; omega⟩
    · exact ⟨19 + s1 + s2, rfl, by simp only [hH]; omega⟩
  · intro hen hs
    simp [prvInitialiseHeap, configASSERT, Proc.emit, Proc.bind_returned, pure_eq_mk, hen, hs]
  · intro hen hs
    simp [prvInitialiseHeap, configASSERT, Proc.emit, printf, exit, Proc.bind_returned,
      Proc.bind_halted, pure_eq_mk, vAssertCalled, hen, hs]
  · have hs := prvHeapSanity_main
    cases hen : env.assertEnabled <;>
      simp [prvInitialiseHeap, configASSERT, Proc.emit, Proc.bind_returned, pure_eq_mk, hen, hs]

theorem C18_heap_regions_fit_witness :
    ulAdditionalOffset + 8201 + 29905 + 7607 < 2 ^ 32 ∧
      prvHeapSanity 8201 29905 7607 = true ∧
      (∀ r ∈ (xHeapRegions 8201 29905 7607).take 3, r.inside configTOTAL_HEAP_SIZE) ∧
      ulAdditionalOffset + 2097152 + 0 + 0 < 2 ^ 32 ∧
      prvHeapSanity 2097152 0 0 = false ∧
      prvInitialiseHeap envPass 2097152 0 0 =
        ⟨(vAssertCalled 358 "main.c" 0).trace, .halted (.exited 1)⟩ :=
  ⟨by decide, (C18_heap_regions_fit 8201 29905 7607 envPass (by decide)).2.2.2.2.1,
    (C18_heap_regions_fit 8201 29905 7607 envPass (by decide)).2.1
      ((C18_heap_regions_fit 8201 29905 7607 envPass (by decide)).1.2 (by decide)),
    by decide, by decide,
    (C18_heap_regions_fit 2097152 0 0 envPass (by decide)).2.2.2.1 rfl (by decide)⟩

/-- C18, the claim as stated fails.  For the sizes 2147483647, 2147483647 and 2 the sum
of line 358 wraps in 32 bits to 19, so the condition of the assertion is true and
`prvInitialiseHeap` defines the regions without calling `vAssertCalled`, although the
sizes add up to more than the heap and none of the three regions lies inside `ucHeap`. -/
theorem C18_counterexample :
    prvHeapSum 2147483647 2147483647 2 = 19 ∧
      prvHeapSanity 2147483647 2147483647 2 = true ∧
      prvInitialiseHeap envPass 2147483647 2147483647 2 =
        ⟨[.vPortDefineHeapRegions (xHeapRegions 2147483647 2147483647 2)], .returned ()⟩ ∧
      ¬ (ulAdditionalOffset + 2147483647 + 2147483647 + 2 < configTOTAL_HEAP_SIZE) ∧
      (∀ r ∈ (xHeapRegions 2147483647 2147483647 2).take 3,
        ¬ r.inside configTOTAL_HEAP_SIZE) := by
  have hH : configTOTAL_HEAP_SIZE = 2097152 := by decide
  refine ⟨by decide, by decide, ?_, by decide, ?_⟩
  · have hs : prvHeapSanity 2147483647 2147483647 2 = true := by decide
    simp [prvInitialiseHeap, configASSERT, Proc.emit, Proc.bind_returned, pure_eq_mk, hs,
      envPass]
  · intro r hr
    simp only [xHeapRegions, List.take, List.mem_cons, List.mem_singleton, List.not_mem_nil,
      or_false] at hr
    rcases hr with rfl | rfl | rfl <;>
    · rintro ⟨start, hstart, hle⟩
      simp only [Option.some.injEq] at hstart
      subst hstart
      simp only [hH] at hle
      omega

/-- C20 (the woken workers stay busy).  Once a call of `xSemaphoreTake` has returned
success, `vWaitForSemaphore` prints its message, gives `xSharedSem` back once, as its
last action, and then loops for ever; once a call of `xTaskNotifyWait` has returned
success, `vWaitForNotification` prints its message, makes no further kernel call and
loops for ever; for every list of results neither worker performs `vTaskDelete(NULL)`
or ends by deleting itself.  On the kernel model: a give leaves the semaphore
available when no task waits for it, and a task that is not Blocked and makes no
blocking call stays classified as not blocked through every further sequence of
kernel calls, a deletion by the tester included. -/
theorem C20_workers_stay_busy (sem : SemaphoreHandle_t) (rs : List BaseType_t) :
    (pdTRUE ∈ rs →
        vWaitForSemaphore sem rs =
          ⟨.printf "[Task][Sem-wait] Waiting for xSharedSem\n" [] ::
              (List.replicate ((rs.takeWhile (fun r => decide (pdTRUE ≠ r))).length + 1)
                  (.xSemaphoreTake sem portMAX_DELAY) ++
                [.printf "[Task][Sem-wait] xSharedSem received\n" [], .xSemaphoreGive sem]),
            .halted .looping⟩) ∧
      (pdPASS ∈ rs →
        vWaitForNotification rs =
          ⟨.printf "[Task][notify-wait] Waiting for notification\n" [] ::
              (List.replicate ((rs.takeWhile (fun r => decide (pdPASS ≠ r))).length + 1)
                  (.xTaskNotifyWait 0 0 portMAX_DELAY) ++
                [.printf "[Task][notify-wait] notification received\n" []]),
            .halted .looping⟩) ∧
      (∀ h, Event.vTaskDelete h ∉ (vWaitForSemaphore sem rs).trace) ∧
      (vWaitForSemaphore sem rs).outcome ≠ .halted .deleted ∧
      (∀ h, Event.vTaskDelete h ∉ (vWaitForNotification rs).trace) ∧
      (vWaitForNotification rs).outcome ≠ .halted .deleted ∧
      (∀ (ops : List Op) (S : SemaphoreHandle_t), S ∈ (Kernel.init.run ops).objs →
        (Kernel.init.run ops).waitList S = [] →
        (xSemaphoreGive (Kernel.init.run ops) S).available S = true ∧
          ∀ t, eTaskGetState (xSemaphoreGive (Kernel.init.run ops) S) t =
            eTaskGetState (Kernel.init.run ops) t) ∧
      (∀ (ops later : List Op) (T : TaskHandle_t),
        (Kernel.init.run ops).state T ≠ eBlocked →
        (∀ op ∈ later, op.blocksTask T = false) →
        vTaskGetCurrentBlocker ((Kernel.init.run ops).run later) T =
            { eStatus := eNotBlocked, pxEventList := none, xUntilTick := none } ∧
          eTaskGetState ((Kernel.init.run ops).run later) T ≠ eBlocked) := by
  refine ⟨?_, ?_, ?_, ?_, ?_, ?_, ?_, ?_⟩
  · intro h
    rw [vWaitForSemaphore_eq, if_pos h]
    rfl
  · intro h
    rw [vWaitForNotification_eq, if_pos h]
    rfl
  · intro h
    rw [vWaitForSemaphore_eq]
    by_cases hs : pdTRUE ∈ rs <;> simp [hs]
  · rw [vWaitForSemaphore_eq]
    by_cases hs : pdTRUE ∈ rs <;> simp [hs]
  · intro h
    rw [vWaitForNotification_eq]
    by_cases hs : pdPASS ∈ rs <;> simp [hs]
  · rw [vWaitForNotification_eq]
    by_cases hs : pdPASS ∈ rs <;> simp [hs]
  · intro ops S hS hw
    generalize Kernel.init.run ops = k at *
    constructor
    · simp [xSemaphoreGive, hS, hw]
    · intro t
      simp [xSemaphoreGive, hS, hw, eTaskGetState]
  · intro ops later T hnb hno
    have hinv : (Kernel.init.run ops).Inv := Kernel.Inv.init.run ops
    have h2 := Kernel.run_awake hnb (noBlockingCall_of_no_call hno)
    exact ⟨classify_of_not_blocked (hinv.run later) h2, h2⟩

set_option maxRecDepth 100000 in
/-- The end of Scenario A on the kernel model: after the worker (task 2) has taken
the semaphore 7 and given it back, the semaphore is available and the worker, which
makes no further call, is classified as not blocked when the tester looks at it and
after the tester has deleted it. -/
theorem C20_workers_stay_busy_witness :
    (Kernel.init.run scenarioA3).available 7 = true ∧
      (Kernel.init.run scenarioA3).state 2 ≠ eBlocked ∧
      vTaskGetCurrentBlocker
          ((Kernel.init.run scenarioA3).run [.getBlocker 2, .getState 2, .delete 2]) 2 =
        { eStatus := eNotBlocked, pxEventList := none, xUntilTick := none } ∧
      (vWaitForSemaphore 7 [1]).outcome = .halted .looping := by
  have h1 : (Kernel.init.run scenarioA3).available 7 = true := by decide
  have h2 : (Kernel.init.run scenarioA3).state 2 ≠ eBlocked := by decide
  have h := C20_workers_stay_busy 7 [1]
  have h3 := congrArg Proc.outcome (h.1 (by decide))
  exact ⟨h1, h2,
    (h.2.2.2.2.2.2.2 scenarioA3 [.getBlocker 2, .getState 2, .delete 2] 2 h2 (by decide)).1, h3⟩

/-- C21 (stats formatting configuration).  FreeRTOSConfig.h defines
`configUSE_STATS_FORMATTING_FUNCTIONS` as 1 (line 111), which is not the value 2 that
the comment above the definition documents. -/
theorem C21_stats_formatting_value :
    configUSE_STATS_FORMATTING_FUNCTIONS = 1 ∧
      configUSE_STATS_FORMATTING_FUNCTIONS ≠ configUSE_STATS_FORMATTING_FUNCTIONS_documented := by
  decide

/-- C23 (the workers' priority and parameter).  Every `xTaskCreate` that `prvTest`
performs passes `tskIDLE_PRIORITY + 1`, that is 1, as `pvParameters` and `NULL`, that
is 0, the idle priority, as `uxPriority`; the `xTaskCreate` of `main` creates the
tester with `NULL` as `pvParameters` and `tskIDLE_PRIORITY + 1` as `uxPriority`; so the
priority of every worker creation is strictly below that of the tester's creation.  In
a run with assertions in which every assertion holds, `prvTest` performs the three
creation calls with these arguments, and `main` performs its own. -/
theorem C23_worker_priority_below_tester (env : TestEnv) (schedulerReturns : Bool) :
    (∀ f n s p u, Event.xTaskCreate f n s p u ∈ (prvTest env).trace →
        p = tskIDLE_PRIORITY + 1 ∧ u = NULL ∧ p = 1 ∧ u = 0 ∧ u = tskIDLE_PRIORITY) ∧
      (∀ f n s p u, Event.xTaskCreate f n s p u ∈ (main env schedulerReturns).trace →
        f = .prvTest ∧ p = NULL ∧ u = tskIDLE_PRIORITY + 1) ∧
      (∀ f n s p u, Event.xTaskCreate f n s p u ∈ (prvTest env).trace →
        ∀ f2 n2 s2 p2 u2,
          Event.xTaskCreate f2 n2 s2 p2 u2 ∈ (main env schedulerReturns).trace → u < u2) ∧
      (env.assertEnabled = true →
        Event.xTaskCreate .prvTest "test" configMINIMAL_STACK_SIZE NULL (tskIDLE_PRIORITY + 1) ∈
          (main env schedulerReturns).trace) ∧
      (env.assertEnabled = true → pdTRUE ∈ env.take →
        (∀ l ∈ assertLines, env.cond l = true) →
        ∀ l ∈ [152, 176, 199],
          Event.xTaskCreate (workerOf l).1 (workerOf l).2 configMINIMAL_STACK_SIZE
            (tskIDLE_PRIORITY + 1) NULL ∈ (prvTest env).trace) := by
  have hw : (prvTest env).allEvents (fun e => ∀ f n s p u, e = Event.xTaskCreate f n s p u →
      p = tskIDLE_PRIORITY + 1 ∧ u = NULL ∧ p = 1 ∧ u = 0 ∧ u = tskIDLE_PRIORITY) := by
    unfold prvTest
    simp only [configASSERT, printf]
    repeat' (first
      | exact allEvents_pure _
      | exact allEvents_halt _
      | exact allEvents_emit (by intro f n s p u h; cases h <;> decide)
      | exact allEvents_takeLoop _ _ (by simp)
      | exact allEvents_vAssertCalled _ _ _ (by simp) (by simp) (by simp)
      | refine allEvents_ite ?_ ?_
      | refine allEvents_bind ?_ (fun _ => ?_))
  have hm : ∀ f n s p u, Event.xTaskCreate f n s p u ∈ (main env schedulerReturns).trace →
      f = .prvTest ∧ p = NULL ∧ u = tskIDLE_PRIORITY + 1 := by
    intro f n s p u he
    rw [main_trace] at he
    cases hen : env.assertEnabled <;> cases schedulerReturns <;>
      by_cases hc : (env.create 234).1 = pdPASS <;>
      simp [hen, hc, vAssertCalled_trace] at he <;>
      exact ⟨he.1, he.2.2.2.1, he.2.2.2.2⟩
  refine ⟨fun f n s p u he => hw _ he f n s p u rfl, hm, ?_, ?_, ?_⟩
  · intro f n s p u he f2 n2 s2 p2 u2 he2
    have h1 := hw _ he f n s p u rfl
    have h2 := hm f2 n2 s2 p2 u2 he2
    rw [h1.2.2.2.1, h2.2.2]
    decide
  · intro hen
    rw [main_trace, hen]
    simp
  · intro hen htake hall l hl
    rw [prvTest_trace_pass env hen htake hall]
    simp only [List.mem_cons, List.mem_singleton, List.not_mem_nil, or_false] at hl
    rcases hl with rfl | rfl | rfl <;> simp [prvTestBody, workerOf]

theorem C23_worker_priority_below_tester_witness :
    Event.xTaskCreate .vWaitForSemaphore "SemWait" 60 1 0 ∈ (prvTest envPass).trace ∧
      Event.xTaskCreate .vWaitForNotification "NoteWait" 60 1 0 ∈ (prvTest envPass).trace ∧
      Event.xTaskCreate .vAlwaysDelay "Sleeper" 60 1 0 ∈ (prvTest envPass).trace ∧
      Event.xTaskCreate .prvTest "test" 60 0 1 ∈ (main envPass false).trace :=
  ⟨(C23_worker_priority_below_tester envPass false).2.2.2.2 rfl (by decide) (by decide) 152
      (by decide),
    (C23_worker_priority_below_tester envPass false).2.2.2.2 rfl (by decide) (by decide) 176
      (by decide),
    (C23_worker_priority_below_tester envPass false).2.2.2.2 rfl (by decide) (by decide) 199
      (by decide),
    (C23_worker_priority_below_tester envPass false).2.2.2.1 rfl⟩

/-- C24 (one worker at a time).  In every run of `prvTest` that prints "Pass.": at no
point of the run do two tasks created by the tester exist; and the creations, the
deletions and the printing of "Pass." occur in this order: with assertions compiled in,
each worker is created and then deleted through the handle its creation stored, before
the next worker is created, the third deletion precedes "Pass.", and the tester's
`vTaskDelete(NULL)` is the last of them, after "Pass."; without assertions no worker is
created, the three `vTaskDelete(xHandle)` pass the uninitialised handle, and the
tester's `vTaskDelete(NULL)` again follows "Pass.". -/
theorem C24_one_worker_at_a_time (env : TestEnv) (hpass : (prvTest env).prints "Pass.\n") :
    atMostOneWorker env [] (prvTest env).trace ∧
      (prvTest env).trace.filter Event.isLifecycle =
        if env.assertEnabled then
          [ .xTaskCreate .vWaitForSemaphore "SemWait" configMINIMAL_STACK_SIZE
              (tskIDLE_PRIORITY + 1) NULL,
            .vTaskDelete (some (env.create 152).2),
            .xTaskCreate .vWaitForNotification "NoteWait" configMINIMAL_STACK_SIZE
              (tskIDLE_PRIORITY + 1) NULL,
            .vTaskDelete (some (env.create 176).2),
            .xTaskCreate .vAlwaysDelay "Sleeper" configMINIMAL_STACK_SIZE
              (tskIDLE_PRIORITY + 1) NULL,
            .vTaskDelete (some (env.create 199).2),
            .printf "Pass.\n" [],
            .vTaskDelete none ]
        else
          [ .vTaskDelete (some env.xHandleInitial), .vTaskDelete (some env.xHandleInitial),
            .vTaskDelete (some env.xHandleInitial), .printf "Pass.\n" [], .vTaskDelete none ] := by
  obtain ⟨htake, hall, hfree⟩ := prvTest_pass_inv env hpass
  cases hen : env.assertEnabled with
  | false =>
    rw [prvTest_trace_no_assert env hen htake (hfree hen).1 (hfree hen).2]
    constructor
    · simp only [prvTestHeader, List.cons_append, List.nil_append, List.append_assoc,
        atMostOneWorker, workersAfter, atMostOneWorker_takes]
      simp [prvTestBody, Event.isCreate, atMostOneWorker, workersAfter, atMostOneWorker_takes]
    · simp [prvTestHeader, prvTestBody, Event.isCreate, Event.isLifecycle,
        List.filter_cons, List.filter_replicate]
  | true =>
    have hall := hall hen
    rw [prvTest_trace_pass env hen htake hall]
    simp [assertLines] at hall
    constructor
    · simp only [prvTestHeader, List.cons_append, List.nil_append, List.append_assoc,
        atMostOneWorker, workersAfter, atMostOneWorker_takes]
      simp [prvTestBody, atMostOneWorker, workersAfter, atMostOneWorker_takes, createLine,
        cond_create env, hall]
    · simp [prvTestHeader, prvTestBody, Event.isLifecycle,
        List.filter_cons, List.filter_replicate]

theorem C24_one_worker_at_a_time_witness :
    (prvTest envPass).prints "Pass.\n" ∧
      atMostOneWorker envPass [] (prvTest envPass).trace ∧
      (prvTest envPass).trace.filter Event.isLifecycle =
        [ .xTaskCreate .vWaitForSemaphore "SemWait" 60 1 0, .vTaskDelete (some 2),
          .xTaskCreate .vWaitForNotification "NoteWait" 60 1 0, .vTaskDelete (some 3),
          .xTaskCreate .vAlwaysDelay "Sleeper" 60 1 0, .vTaskDelete (some 4),
          .printf "Pass.\n" [], .vTaskDelete none ] :=
  ⟨by decide, (C24_one_worker_at_a_time envPass (by decide)).1,
    (C24_one_worker_at_a_time envPass (by decide)).2⟩

end FreeRTOS
